import Mathlib

/-!
Verification of the cached file-system facade of the go-irodsclient repository
(`src/fs/fs.go`, `src/fs/fs_metadata.go`).

The Go code is shallowly embedded: every facade operation becomes a pure Lean
function from the cache state and a server oracle to a result, the post state,
and the list of protocol requests it issued.  The `FileSystemCache` itself and
the `irods/util` path helpers are not part of the provided sources; those are
modelled from the specification (each such definition carries a doc comment
saying so).  TTL deadlines of cache records are elided: every claim treated in
this file concerns the cache at a single instant, never across the passage of
time.  Connection acquisition from the session pool is likewise elided (it is
external to `src/fs`); an operation's server traffic is recorded in its
request trace.
-/

namespace GoIrods

/-- Modelled from the spec: `irods/util` path helpers are not under `src/`.
An absolute, normalized iRODS path (§4.E: collapsed slashes, no trailing
slash, no `..`) is represented by its list of segments from the root, so
`GetCorrectIRODSPath` is the identity on this representation. -/
abbrev IRODSPath := List String

/-- Modelled from the spec: `util.GetIRODSPathDirname` / `util.GetDirname`,
the parent of a path. -/
def getIRODSPathDirname (p : IRODSPath) : IRODSPath := p.dropLast

/-- Modelled from the spec: `util.GetIRODSPathFileName`, the last path
segment. -/
def getIRODSPathFileName (p : IRODSPath) : String := p.getLast?.getD ""

/-- Modelled from the spec: `util.MakeIRODSPath`, joining a directory path
with a file name. -/
def makeIRODSPath (dir : IRODSPath) (name : String) : IRODSPath := dir ++ [name]

/-- Entry kind (`fs/entry.go` is not under `src/`; the source uses string
constants, compared with `==` at the dispatch sites in `fs.go`). -/
abbrev EntryType := String

/-- The directory entry kind constant. -/
def DirectoryEntry : EntryType := "directory"

/-- The file entry kind constant. -/
def FileEntry : EntryType := "file"

/-- The user type marking a group (`types.IRODSUserRodsGroup`). -/
def IRODSUserRodsGroup : String := "rodsgroup"

/-- A replica of a data object (`types.IRODSReplica`), restricted to the
fields `fs.go` reads. -/
structure IRODSReplica where
  Owner : String
  CheckSum : String
  CreateTime : Nat
  ModifyTime : Nat
deriving DecidableEq, Repr

/-- A collection record returned by the server (`types.IRODSCollection`),
restricted to the fields `fs.go` reads. -/
structure IRODSCollection where
  ID : Int
  Path : IRODSPath
  Name : String
  Owner : String
  CreateTime : Nat
  ModifyTime : Nat
deriving DecidableEq, Repr

/-- A data object record returned by the server (`types.IRODSDataObject`),
restricted to the fields `fs.go` reads. -/
structure IRODSDataObject where
  ID : Int
  Path : IRODSPath
  Name : String
  Size : Int
  Replicas : List IRODSReplica
deriving DecidableEq, Repr

/-- The opaque `Entry.Internal` payload: the raw collection or data-object
record (`interface{}` in Go, type-asserted at use sites). -/
inductive InternalRec where
  | coll (c : IRODSCollection)
  | dobj (d : IRODSDataObject)
deriving DecidableEq, Repr

/-- The unified file/dir descriptor (`fs.Entry`).  The Go field `Type` is
spelled `Type'` because `Type` is a Lean keyword. -/
structure Entry where
  ID : Int
  Type' : EntryType
  Name : String
  Path : IRODSPath
  Owner : String
  Size : Int
  CreateTime : Nat
  ModifyTime : Nat
  CheckSum : String
  Internal : Option InternalRec
deriving DecidableEq, Repr

/-- An ACL tuple (`types.IRODSAccess`). -/
structure IRODSAccess where
  Path : IRODSPath
  UserName : String
  UserZone : String
  UserType : String
  AccessLevel : String
deriving DecidableEq, Repr

/-- A user or group (`types.IRODSUser`), restricted to the fields `fs.go`
reads; the Go field `Type` is spelled `Type'`. -/
structure IRODSUser where
  Name : String
  Zone : String
  Type' : String
deriving DecidableEq, Repr

/-- An AVU metadata triple (`types.IRODSMeta`). -/
structure IRODSMeta where
  AVUID : Int
  Name : String
  Value : String
  Units : String
deriving DecidableEq, Repr

/-- Errors surfaced by the facade.  `types.NewFileNotFoundError(f)` both
carry a message and are recognised by `types.IsFileNotFoundError`; every
other error is carried as `general`. -/
inductive IRODSError where
  | fileNotFound (msg : String)
  | general (msg : String)
deriving DecidableEq, Repr

/-- Go `types.IsFileNotFoundError`. -/
def IsFileNotFoundError : IRODSError → Bool
  | .fileNotFound _ => true
  | .general _ => false

/-- The outcome of a Go call: a value, a returned error, or a runtime panic
(out-of-range index or failed type assertion). -/
inductive GoResult (α : Type) where
  | ok (val : α)
  | err (e : IRODSError)
  | panicked
deriving DecidableEq, Repr

/-! ### Association-list maps

The cache's per-namespace maps are modelled as association lists; only the
lookup semantics matter. -/

/-- Map lookup. -/
def alGet {κ α : Type} [DecidableEq κ] (l : List (κ × α)) (k : κ) : Option α :=
  (l.find? (fun kv => decide (kv.1 = k))).map Prod.snd

/-- Map removal. -/
def alRemove {κ α : Type} [DecidableEq κ] (l : List (κ × α)) (k : κ) : List (κ × α) :=
  l.filter (fun kv => decide (kv.1 ≠ k))

/-- Map insertion (replacing any previous binding of the key). -/
def alPut {κ α : Type} [DecidableEq κ] (l : List (κ × α)) (k : κ) (v : α) : List (κ × α) :=
  (k, v) :: alRemove l k

/-- Set insertion for the negative-entry namespace. -/
def setAdd (l : List IRODSPath) (p : IRODSPath) : List IRODSPath :=
  if p ∈ l then l else p :: l

/-- Set removal for the negative-entry namespace. -/
def setRemove (l : List IRODSPath) (p : IRODSPath) : List IRODSPath :=
  l.filter (fun q => decide (q ≠ p))

/-! ### The file-system cache

Modelled from the spec: the `FileSystemCache` implementation (`fs/cache.go`)
is not under `src/`; §4.C specifies per-namespace maps with `get`, `put`,
`remove` and `removePrefix`, plus the `invalidateParentEntryCacheImmediately`
flag that `NewFileSystemCache` receives in `fs.go`.  Deadlines are elided as
explained at the top of the file. -/
structure FileSystemCache where
  entryCache : List (IRODSPath × Entry)
  negativeEntryCache : List IRODSPath
  dirCache : List (IRODSPath × List IRODSPath)
  dirACLCache : List (IRODSPath × List IRODSAccess)
  fileACLCache : List (IRODSPath × List IRODSAccess)
  metadataCache : List (IRODSPath × List IRODSMeta)
  groupUsersCache : List (String × List IRODSUser)
  invalidateParentEntryCacheImmediately : Bool
deriving DecidableEq, Repr

/-- The cache every `FileSystem` starts with: all namespaces empty; the flag
defaults to true (§6 `FileSystemConfig`). -/
def emptyCache : FileSystemCache :=
  ⟨[], [], [], [], [], [], [], true⟩

namespace FileSystemCache

/-- Modelled from the spec (§4.C `get` on the `Entry` namespace). -/
def GetEntryCache (c : FileSystemCache) (p : IRODSPath) : Option Entry :=
  alGet c.entryCache p

/-- Modelled from the spec (§4.C `put`); an entry is keyed by its path. -/
def AddEntryCache (c : FileSystemCache) (e : Entry) : FileSystemCache :=
  { c with entryCache := alPut c.entryCache e.Path e }

/-- Modelled from the spec (§4.C `remove`). -/
def RemoveEntryCache (c : FileSystemCache) (p : IRODSPath) : FileSystemCache :=
  { c with entryCache := alRemove c.entryCache p }

/-- Modelled from the spec (§4.C, `NegativeEntry` namespace). -/
def HasNegativeEntryCache (c : FileSystemCache) (p : IRODSPath) : Bool :=
  decide (p ∈ c.negativeEntryCache)

/-- Modelled from the spec (§4.C `put` on `NegativeEntry`). -/
def AddNegativeEntryCache (c : FileSystemCache) (p : IRODSPath) : FileSystemCache :=
  { c with negativeEntryCache := setAdd c.negativeEntryCache p }

/-- Modelled from the spec (§4.C `remove` on `NegativeEntry`). -/
def RemoveNegativeEntryCache (c : FileSystemCache) (p : IRODSPath) : FileSystemCache :=
  { c with negativeEntryCache := setRemove c.negativeEntryCache p }

/-- Modelled from the spec (§4.C `removePrefix`, used by `RenameDirToDir`
to expunge every negative entry under a path). -/
def RemoveAllNegativeEntryCacheForPath (c : FileSystemCache) (root : IRODSPath) :
    FileSystemCache :=
  { c with negativeEntryCache :=
      c.negativeEntryCache.filter (fun q => decide (¬ root.isPrefixOf q)) }

/-- Modelled from the spec (§4.C, `DirChildren` namespace); `none` plays the
role of Go's nil slice for an uncached key. -/
def GetDirCache (c : FileSystemCache) (p : IRODSPath) : Option (List IRODSPath) :=
  alGet c.dirCache p

/-- Modelled from the spec (§4.C `put` on `DirChildren`). -/
def AddDirCache (c : FileSystemCache) (p : IRODSPath) (children : List IRODSPath) :
    FileSystemCache :=
  { c with dirCache := alPut c.dirCache p children }

/-- Modelled from the spec (§4.C `remove` on `DirChildren`). -/
def RemoveDirCache (c : FileSystemCache) (p : IRODSPath) : FileSystemCache :=
  { c with dirCache := alRemove c.dirCache p }

/-- Modelled from the spec (§4.C, `DirACL` namespace). -/
def GetDirACLsCache (c : FileSystemCache) (p : IRODSPath) : Option (List IRODSAccess) :=
  alGet c.dirACLCache p

/-- Modelled from the spec (§4.C `put` on `DirACL`). -/
def AddDirACLsCache (c : FileSystemCache) (p : IRODSPath) (a : List IRODSAccess) :
    FileSystemCache :=
  { c with dirACLCache := alPut c.dirACLCache p a }

/-- Modelled from the spec (§4.C `remove` on `DirACL`). -/
def RemoveDirACLsCache (c : FileSystemCache) (p : IRODSPath) : FileSystemCache :=
  { c with dirACLCache := alRemove c.dirACLCache p }

/-- Modelled from the spec (§4.C, `FileACL` namespace). -/
def GetFileACLsCache (c : FileSystemCache) (p : IRODSPath) : Option (List IRODSAccess) :=
  alGet c.fileACLCache p

/-- Modelled from the spec (§4.C `put` on `FileACL`). -/
def AddFileACLsCache (c : FileSystemCache) (p : IRODSPath) (a : List IRODSAccess) :
    FileSystemCache :=
  { c with fileACLCache := alPut c.fileACLCache p a }

/-- Modelled from the spec (§4.C `remove` on `FileACL`). -/
def RemoveFileACLsCache (c : FileSystemCache) (p : IRODSPath) : FileSystemCache :=
  { c with fileACLCache := alRemove c.fileACLCache p }

/-- Modelled from the spec (§4.C, `Metadata` namespace). -/
def GetMetadataCache (c : FileSystemCache) (p : IRODSPath) : Option (List IRODSMeta) :=
  alGet c.metadataCache p

/-- Modelled from the spec (§4.C `put` on `Metadata`). -/
def AddMetadataCache (c : FileSystemCache) (p : IRODSPath) (m : List IRODSMeta) :
    FileSystemCache :=
  { c with metadataCache := alPut c.metadataCache p m }

/-- Modelled from the spec (§4.C `remove` on `Metadata`). -/
def RemoveMetadataCache (c : FileSystemCache) (p : IRODSPath) : FileSystemCache :=
  { c with metadataCache := alRemove c.metadataCache p }

/-- Modelled from the spec (§4.C, `GroupUsers` namespace). -/
def GetGroupUsersCache (c : FileSystemCache) (g : String) : Option (List IRODSUser) :=
  alGet c.groupUsersCache g

/-- Modelled from the spec (§4.C `put` on `GroupUsers`). -/
def AddGroupUsersCache (c : FileSystemCache) (g : String) (us : List IRODSUser) :
    FileSystemCache :=
  { c with groupUsersCache := alPut c.groupUsersCache g us }

/-- Modelled from the spec (§4.C invalidation rules, last bullet): the flag
`invalidateParentEntryCacheImmediately` controls whether the parent's `Entry`
is evicted.  `fs.go` calls this right under the comment
`parent dir's entry also changes`. -/
def RemoveParentDirCache (c : FileSystemCache) (p : IRODSPath) : FileSystemCache :=
  if c.invalidateParentEntryCacheImmediately then
    c.RemoveEntryCache (getIRODSPathDirname p)
  else c

end FileSystemCache

/-! ### The server oracle and request traces

The `irods/fs` protocol functions (§6) are black boxes returning typed
records or errors; a `Server` fixes one response per request.  Each facade
operation additionally records the requests it issued, so that "without
server traffic" is a statement about an empty trace. -/

/-- A protocol request issued by the facade. -/
inductive Req where
  | getCollection (p : IRODSPath)
  | getDataObjectMasterReplica (collPath : IRODSPath) (name : String)
  | listSubCollections (p : IRODSPath)
  | listDataObjectsMasterReplica (p : IRODSPath)
  | searchCollectionsByMeta (n v : String)
  | searchDataObjectsMasterReplicaByMeta (n v : String)
  | listCollectionAccess (p : IRODSPath)
  | listDataObjectAccess (collPath : IRODSPath) (name : String)
  | listGroupUsers (g : String)
  | deleteDataObject (p : IRODSPath) (force : Bool)
  | deleteCollection (p : IRODSPath) (recurse force : Bool)
  | createCollection (p : IRODSPath) (recurse : Bool)
  | moveCollection (src dest : IRODSPath)
  | moveDataObject (src dest : IRODSPath)
  | copyDataObject (src dest : IRODSPath)
  | truncateDataObject (p : IRODSPath) (size : Int)
  | replicateDataObject (p : IRODSPath) (resource : String) (update adminFlag : Bool)
deriving DecidableEq, Repr

/-- The server's fixed responses to the protocol requests the facade uses. -/
structure Server where
  getCollection : IRODSPath → Except IRODSError IRODSCollection
  getDataObjectMasterReplica : IRODSPath → String → Except IRODSError IRODSDataObject
  listSubCollections : IRODSPath → Except IRODSError (List IRODSCollection)
  listDataObjectsMasterReplica : IRODSPath → Except IRODSError (List IRODSDataObject)
  searchCollectionsByMeta : String → String → Except IRODSError (List IRODSCollection)
  searchDataObjectsMasterReplicaByMeta :
    String → String → Except IRODSError (List IRODSDataObject)
  listCollectionAccess : IRODSPath → Except IRODSError (List IRODSAccess)
  listDataObjectAccess : IRODSPath → String → Except IRODSError (List IRODSAccess)
  listGroupUsers : String → Except IRODSError (List IRODSUser)
  deleteDataObject : IRODSPath → Bool → Except IRODSError Unit
  deleteCollection : IRODSPath → Bool → Bool → Except IRODSError Unit
  createCollection : IRODSPath → Bool → Except IRODSError Unit
  moveCollection : IRODSPath → IRODSPath → Except IRODSError Unit
  moveDataObject : IRODSPath → IRODSPath → Except IRODSError Unit
  copyDataObject : IRODSPath → IRODSPath → Except IRODSError Unit
  truncateDataObject : IRODSPath → Int → Except IRODSError Unit
  replicateDataObject : IRODSPath → String → Bool → Bool → Except IRODSError Unit

/-- A server that answers every request with a generic error; concrete
servers in witnesses override the fields they need. -/
def noServer : Server where
  getCollection := fun _ => .error (.general "no response")
  getDataObjectMasterReplica := fun _ _ => .error (.general "no response")
  listSubCollections := fun _ => .error (.general "no response")
  listDataObjectsMasterReplica := fun _ => .error (.general "no response")
  searchCollectionsByMeta := fun _ _ => .error (.general "no response")
  searchDataObjectsMasterReplicaByMeta := fun _ _ => .error (.general "no response")
  listCollectionAccess := fun _ => .error (.general "no response")
  listDataObjectAccess := fun _ _ => .error (.general "no response")
  listGroupUsers := fun _ => .error (.general "no response")
  deleteDataObject := fun _ _ => .error (.general "no response")
  deleteCollection := fun _ _ _ => .error (.general "no response")
  createCollection := fun _ _ => .error (.general "no response")
  moveCollection := fun _ _ => .error (.general "no response")
  moveDataObject := fun _ _ => .error (.general "no response")
  copyDataObject := fun _ _ => .error (.general "no response")
  truncateDataObject := fun _ _ => .error (.general "no response")
  replicateDataObject := fun _ _ _ _ => .error (.general "no response")

/-- The observable effect of one facade call: its returned value or error,
the cache afterwards, and the protocol requests it issued, in order. -/
structure Res (α : Type) where
  result : GoResult α
  cache : FileSystemCache
  reqs : List Req
deriving DecidableEq, Repr

/-! ### Read operations (`fs.go`) -/

/-- The entry built from a collection record (the struct literal repeated at
`fs.go:1171`, `fs.go:1235` and `fs.go:1313`). -/
def collectionToEntry (coll : IRODSCollection) : Entry where
  ID := coll.ID
  Type' := DirectoryEntry
  Name := coll.Name
  Path := coll.Path
  Owner := coll.Owner
  Size := 0
  CreateTime := coll.CreateTime
  ModifyTime := coll.ModifyTime
  CheckSum := ""
  Internal := some (.coll coll)

/-- The entry built from a data-object record and its first replica (the
struct literal repeated at `fs.go:1267`, `fs.go:1345` and `fs.go:1398`). -/
def dataObjectToEntry (dobj : IRODSDataObject) (replica : IRODSReplica) : Entry where
  ID := dobj.ID
  Type' := FileEntry
  Name := dobj.Name
  Path := dobj.Path
  Owner := replica.Owner
  Size := dobj.Size
  CreateTime := replica.CreateTime
  ModifyTime := replica.ModifyTime
  CheckSum := replica.CheckSum
  Internal := some (.dobj dobj)

/-- The cache-miss tail of `getCollection` (`fs.go:1158-1190`). -/
def goGetCollectionFetch (c : FileSystemCache) (srv : Server) (path : IRODSPath) :
    Res Entry :=
  match srv.getCollection path with
  | .error e => ⟨.err e, c, [.getCollection path]⟩
  | .ok collection =>
    if collection.ID > 0 then
      let entry := collectionToEntry collection
      ⟨.ok entry, (c.RemoveNegativeEntryCache path).AddEntryCache entry,
        [.getCollection path]⟩
    else
      ⟨.err (.fileNotFound "could not find a directory"), c, [.getCollection path]⟩

/-- Go `getCollection` (`fs.go:1147-1191`). -/
def goGetCollection (c : FileSystemCache) (srv : Server) (path : IRODSPath) :
    Res Entry :=
  if c.HasNegativeEntryCache path then
    ⟨.err (.fileNotFound "could not find a directory"), c, []⟩
  else
    match c.GetEntryCache path with
    | some cachedEntry =>
      if cachedEntry.Type' = DirectoryEntry then ⟨.ok cachedEntry, c, []⟩
      else goGetCollectionFetch c srv path
    | none => goGetCollectionFetch c srv path

/-- The cache-miss tail of `getDataObject` (`fs.go:1380-1417`): resolve the
parent collection, then fetch the data object.  `dataobject.Replicas[0]` is
an unguarded index and `collection.Internal.(*types.IRODSCollection)` an
unchecked type assertion; both yield `panicked` when they would panic in Go. -/
def goGetDataObjectFetch (c : FileSystemCache) (srv : Server) (path : IRODSPath) :
    Res Entry :=
  let r := goGetCollection c srv (getIRODSPathDirname path)
  match r.result with
  | .err e => ⟨.err e, r.cache, r.reqs⟩
  | .panicked => ⟨.panicked, r.cache, r.reqs⟩
  | .ok collectionEntry =>
    match collectionEntry.Internal with
    | some (.coll collection) =>
      let fileName := getIRODSPathFileName path
      let reqs := r.reqs ++ [.getDataObjectMasterReplica collection.Path fileName]
      match srv.getDataObjectMasterReplica collection.Path fileName with
      | .error e => ⟨.err e, r.cache, reqs⟩
      | .ok dataobject =>
        if dataobject.ID > 0 then
          match dataobject.Replicas with
          | [] => ⟨.panicked, r.cache, reqs⟩
          | replica :: _ =>
            let entry := dataObjectToEntry dataobject replica
            ⟨.ok entry, (r.cache.RemoveNegativeEntryCache path).AddEntryCache entry,
              reqs⟩
        else
          ⟨.err (.fileNotFound "could not find a data object"), r.cache, reqs⟩
    | _ => ⟨.panicked, r.cache, r.reqs⟩

/-- Go `getDataObject` (`fs.go:1369-1418`). -/
def goGetDataObject (c : FileSystemCache) (srv : Server) (path : IRODSPath) :
    Res Entry :=
  if c.HasNegativeEntryCache path then
    ⟨.err (.fileNotFound "could not find a data object"), c, []⟩
  else
    match c.GetEntryCache path with
    | some cachedEntry =>
      if cachedEntry.Type' = FileEntry then ⟨.ok cachedEntry, c, []⟩
      else goGetDataObjectFetch c srv path
    | none => goGetDataObjectFetch c srv path

/-- Go `StatDir` (`fs.go:289-293`); path normalization is the identity on the
segment representation. -/
def goStatDir (c : FileSystemCache) (srv : Server) (path : IRODSPath) : Res Entry :=
  goGetCollection c srv path

/-- Go `StatFile` (`fs.go:296-300`). -/
def goStatFile (c : FileSystemCache) (srv : Server) (path : IRODSPath) : Res Entry :=
  goGetDataObject c srv path

/-- The cache-miss tail of `Stat` (`fs.go:262-285`): try `StatDir`, fall back
to `StatFile`, and record a negative entry when both report not-found. -/
def goStatFetch (c : FileSystemCache) (srv : Server) (path : IRODSPath) : Res Entry :=
  let rdir := goStatDir c srv path
  match rdir.result with
  | .ok e => ⟨.ok e, rdir.cache, rdir.reqs⟩
  | .panicked => ⟨.panicked, rdir.cache, rdir.reqs⟩
  | .err edir =>
    if IsFileNotFoundError edir then
      let rfile := goStatFile rdir.cache srv path
      match rfile.result with
      | .ok e => ⟨.ok e, rfile.cache, rdir.reqs ++ rfile.reqs⟩
      | .panicked => ⟨.panicked, rfile.cache, rdir.reqs ++ rfile.reqs⟩
      | .err efile =>
        if IsFileNotFoundError efile then
          ⟨.err (.fileNotFound "could not find a data object or a directory"),
            rfile.cache.AddNegativeEntryCache path, rdir.reqs ++ rfile.reqs⟩
        else
          ⟨.err efile, rfile.cache, rdir.reqs ++ rfile.reqs⟩
    else
      ⟨.err edir, rdir.cache, rdir.reqs⟩

/-- Go `Stat` (`fs.go:228-286`). -/
def goStat (c : FileSystemCache) (srv : Server) (path : IRODSPath) : Res Entry :=
  if c.HasNegativeEntryCache path then
    ⟨.err (.fileNotFound "could not find a data object or a directory"), c, []⟩
  else
    match c.GetEntryCache path with
    | some cachedEntry => ⟨.ok cachedEntry, c, []⟩
    | none =>
      let parentPath := getIRODSPathDirname path
      match c.GetDirCache parentPath with
      | some cachedDirEntryPaths =>
        if path ∈ cachedDirEntryPaths then goStatFetch c srv path
        else
          ⟨.err (.fileNotFound "could not find a data object or a directory"),
            c.AddNegativeEntryCache path, []⟩
      | none => goStatFetch c srv path

/-- Go `Exists` (`fs.go:303-309`). -/
def goExists (c : FileSystemCache) (srv : Server) (path : IRODSPath) : Res Bool :=
  let r := goStat c srv path
  match r.result with
  | .err _ => ⟨.ok false, r.cache, r.reqs⟩
  | .panicked => ⟨.panicked, r.cache, r.reqs⟩
  | .ok entry => ⟨.ok (decide (entry.ID > 0)), r.cache, r.reqs⟩

/-- Go `ExistsDir` (`fs.go:312-318`). -/
def goExistsDir (c : FileSystemCache) (srv : Server) (path : IRODSPath) : Res Bool :=
  let r := goStatDir c srv path
  match r.result with
  | .err _ => ⟨.ok false, r.cache, r.reqs⟩
  | .panicked => ⟨.panicked, r.cache, r.reqs⟩
  | .ok entry => ⟨.ok (decide (entry.ID > 0)), r.cache, r.reqs⟩

/-- Go `ExistsFile` (`fs.go:321-327`). -/
def goExistsFile (c : FileSystemCache) (srv : Server) (path : IRODSPath) : Res Bool :=
  let r := goStatFile c srv path
  match r.result with
  | .err _ => ⟨.ok false, r.cache, r.reqs⟩
  | .panicked => ⟨.panicked, r.cache, r.reqs⟩
  | .ok entry => ⟨.ok (decide (entry.ID > 0)), r.cache, r.reqs⟩

/-! ### Listing and metadata search (`fs.go:1194-1366`) -/

/-- The cached-children loop of `listEntries` (`fs.go:1200-1210`): collect
the cached entry of every cached child path; any miss clears `useCached`. -/
def goCollectCachedEntries (c : FileSystemCache) (paths : List IRODSPath) :
    List Entry × Bool :=
  match paths with
  | [] => ([], true)
  | p :: rest =>
    let tail := goCollectCachedEntries c rest
    match c.GetEntryCache p with
    | some e => (e :: tail.1, tail.2)
    | none => (tail.1, false)

/-- The negative-cache clearing loop of `listEntries` (`fs.go:1213-1216`). -/
def goClearNegativeEntries (c : FileSystemCache) (entries : List Entry) :
    FileSystemCache :=
  entries.foldl (fun acc e => acc.RemoveNegativeEntryCache e.Path) c

/-- The sub-collection loop of `listEntries` (`fs.go:1234-1253`), also the
collection loop of `searchEntriesByMeta` (`fs.go:1312-1331`): build an entry
per record and cache it as it goes. -/
def goCacheCollectionEntries (c : FileSystemCache) (colls : List IRODSCollection) :
    List Entry × FileSystemCache :=
  match colls with
  | [] => ([], c)
  | coll :: rest =>
    let entry := collectionToEntry coll
    let c1 := (c.RemoveNegativeEntryCache entry.Path).AddEntryCache entry
    let tail := goCacheCollectionEntries c1 rest
    (entry :: tail.1, tail.2)

/-- The data-object loop of `listEntries` (`fs.go:1260-1285`), also of
`searchEntriesByMeta` (`fs.go:1338-1363`): a record with an empty replica
list is skipped (`continue`); otherwise an entry is built from the first
replica and cached as it goes. -/
def goCacheDataObjectEntries (c : FileSystemCache) (dobjs : List IRODSDataObject) :
    List Entry × FileSystemCache :=
  match dobjs with
  | [] => ([], c)
  | dobj :: rest =>
    match dobj.Replicas with
    | [] => goCacheDataObjectEntries c rest
    | replica :: _ =>
      let entry := dataObjectToEntry dobj replica
      let c1 := (c.RemoveNegativeEntryCache entry.Path).AddEntryCache entry
      let tail := goCacheDataObjectEntries c1 rest
      (entry :: tail.1, tail.2)

/-- The fetch tail of `listEntries` (`fs.go:1220-1294`): two protocol
queries, caching each resulting entry, then `DirChildren` set to the union
of the resulting paths. -/
def goListEntriesFetch (c : FileSystemCache) (srv : Server)
    (collection : IRODSCollection) : Res (List Entry) :=
  match srv.listSubCollections collection.Path with
  | .error e => ⟨.err e, c, [.listSubCollections collection.Path]⟩
  | .ok collections =>
    let stepColl := goCacheCollectionEntries c collections
    match srv.listDataObjectsMasterReplica collection.Path with
    | .error e =>
      ⟨.err e, stepColl.2,
        [.listSubCollections collection.Path,
         .listDataObjectsMasterReplica collection.Path]⟩
    | .ok dataobjects =>
      let stepDobj := goCacheDataObjectEntries stepColl.2 dataobjects
      let entries := stepColl.1 ++ stepDobj.1
      let dirEntryPaths := entries.map (fun e => e.Path)
      ⟨.ok entries, stepDobj.2.AddDirCache collection.Path dirEntryPaths,
        [.listSubCollections collection.Path,
         .listDataObjectsMasterReplica collection.Path]⟩

/-- Go `listEntries` (`fs.go:1194-1295`). -/
def goListEntries (c : FileSystemCache) (srv : Server)
    (collection : IRODSCollection) : Res (List Entry) :=
  match c.GetDirCache collection.Path with
  | some cachedDirEntryPaths =>
    let cached := goCollectCachedEntries c cachedDirEntryPaths
    if cached.2 then ⟨.ok cached.1, goClearNegativeEntries c cached.1, []⟩
    else goListEntriesFetch c srv collection
  | none => goListEntriesFetch c srv collection

/-- Go `searchEntriesByMeta` (`fs.go:1297-1366`): like the fetch tail of
`listEntries` but driven by the two metadata search queries and without a
`DirChildren` update. -/
def goSearchEntriesByMeta (c : FileSystemCache) (srv : Server)
    (metaName metaValue : String) : Res (List Entry) :=
  match srv.searchCollectionsByMeta metaName metaValue with
  | .error e => ⟨.err e, c, [.searchCollectionsByMeta metaName metaValue]⟩
  | .ok collections =>
    let stepColl := goCacheCollectionEntries c collections
    match srv.searchDataObjectsMasterReplicaByMeta metaName metaValue with
    | .error e =>
      ⟨.err e, stepColl.2,
        [.searchCollectionsByMeta metaName metaValue,
         .searchDataObjectsMasterReplicaByMeta metaName metaValue]⟩
    | .ok dataobjects =>
      let stepDobj := goCacheDataObjectEntries stepColl.2 dataobjects
      ⟨.ok (stepColl.1 ++ stepDobj.1), stepDobj.2,
        [.searchCollectionsByMeta metaName metaValue,
         .searchDataObjectsMasterReplicaByMeta metaName metaValue]⟩

/-! ### Cache invalidation helpers (`fs.go:1525-1640`) -/

/-- Go `invalidateCacheForFileUpdate` (`fs.go:1526-1531`). -/
def invalidateCacheForFileUpdate (c : FileSystemCache) (path : IRODSPath) :
    FileSystemCache :=
  (c.RemoveNegativeEntryCache path).RemoveEntryCache path

/-- The inline parent-`DirChildren` rewrite shared by the remove helpers
(`fs.go:1585-1593`, `fs.go:1605-1613`): read the parent's children (a nil
slice when uncached), keep the others, and store the result. -/
def dropFromParentDirCache (c : FileSystemCache) (path : IRODSPath) :
    FileSystemCache :=
  let parentPath := getIRODSPathDirname path
  let parentDirEntries := (c.GetDirCache parentPath).getD []
  let newParentDirEntries := parentDirEntries.filter (fun q => decide (q ≠ path))
  c.AddDirCache parentPath newParentDirEntries

/-- The inline parent-`DirChildren` rewrite shared by the create helpers
(`fs.go:1623-1626`, `fs.go:1636-1639`): Go appends to the possibly-nil
cached slice and stores the result unconditionally. -/
def appendToParentDirCache (c : FileSystemCache) (path : IRODSPath) :
    FileSystemCache :=
  let parentPath := getIRODSPathDirname path
  let parentDirEntries := (c.GetDirCache parentPath).getD [] ++ [path]
  c.AddDirCache parentPath parentDirEntries

/-- Go `invalidateCacheForFileRemove` (`fs.go:1597-1614`). -/
def invalidateCacheForFileRemove (c : FileSystemCache) (path : IRODSPath) :
    FileSystemCache :=
  let c1 := ((c.RemoveEntryCache path).RemoveFileACLsCache path).RemoveMetadataCache path
  dropFromParentDirCache (c1.RemoveParentDirCache path) path

/-- Go `invalidateCacheForRemoveInternal` (`fs.go:1534-1557`).  The Go function
recurses through the cached `DirChildren` of descendants; the recursion is
given explicit fuel to be total (the cache records form no cycle in any
reachable state, so the fuel chosen by callers never runs out there). -/
def invalidateCacheForRemoveInternal (fuel : Nat) (c : FileSystemCache)
    (path : IRODSPath) (recursive : Bool) : FileSystemCache :=
  match fuel with
  | 0 => c
  | fuel' + 1 =>
    let entry := if recursive then c.GetEntryCache path else none
    let c1 :=
      ((c.RemoveEntryCache path).RemoveFileACLsCache path).RemoveMetadataCache path
    let c2 :=
      if recursive then
        match entry with
        | some e =>
          if e.Type' = DirectoryEntry then
            ((c1.GetDirCache path).getD []).foldl
              (fun acc dirEntry =>
                invalidateCacheForRemoveInternal fuel' acc dirEntry recursive) c1
          else c1
        | none => c1
      else c1
    (c2.RemoveDirCache path).RemoveDirACLsCache path

/-- Go `invalidateCacheForDirRemove` (`fs.go:1560-1594`). -/
def invalidateCacheForDirRemove (fuel : Nat) (c : FileSystemCache)
    (path : IRODSPath) (recursive : Bool) : FileSystemCache :=
  let entry := if recursive then c.GetEntryCache path else none
  let c1 := (c.RemoveEntryCache path).RemoveMetadataCache path
  let c2 :=
    if recursive then
      match entry with
      | some e =>
        if e.Type' = DirectoryEntry then
          ((c1.GetDirCache path).getD []).foldl
            (fun acc dirEntry =>
              invalidateCacheForRemoveInternal fuel acc dirEntry recursive) c1
        else c1
      | none => c1
    else c1
  let c3 := (c2.RemoveDirCache path).RemoveDirACLsCache path
  dropFromParentDirCache (c3.RemoveParentDirCache path) path

/-- Go `invalidateCacheForDirCreate` (`fs.go:1617-1627`). -/
def invalidateCacheForDirCreate (c : FileSystemCache) (path : IRODSPath) :
    FileSystemCache :=
  appendToParentDirCache ((c.RemoveNegativeEntryCache path).RemoveParentDirCache path)
    path

/-- Go `invalidateCacheForFileCreate` (`fs.go:1630-1640`). -/
def invalidateCacheForFileCreate (c : FileSystemCache) (path : IRODSPath) :
    FileSystemCache :=
  appendToParentDirCache ((c.RemoveNegativeEntryCache path).RemoveParentDirCache path)
    path

/-- Fuel ample for the descendant recursion of `invalidateCacheForDirRemove`
on any acyclic cache. -/
def cacheFuel (c : FileSystemCache) : Nat := c.dirCache.length + 1

/-! ### Mutating facade operations (`fs.go:540-751`) -/

/-- Go `RemoveFile` (`fs.go:560-577`). -/
def goRemoveFile (c : FileSystemCache) (srv : Server) (path : IRODSPath)
    (force : Bool) : Res Unit :=
  match srv.deleteDataObject path force with
  | .error e => ⟨.err e, c, [.deleteDataObject path force]⟩
  | .ok _ =>
    ⟨.ok (), invalidateCacheForFileRemove (c.AddNegativeEntryCache path) path,
      [.deleteDataObject path force]⟩

/-- Go `RemoveDir` (`fs.go:540-557`). -/
def goRemoveDir (c : FileSystemCache) (srv : Server) (path : IRODSPath)
    (recurse force : Bool) : Res Unit :=
  match srv.deleteCollection path recurse force with
  | .error e => ⟨.err e, c, [.deleteCollection path recurse force]⟩
  | .ok _ =>
    let c1 := c.AddNegativeEntryCache path
    ⟨.ok (), invalidateCacheForDirRemove (cacheFuel c1) c1 path recurse,
      [.deleteCollection path recurse force]⟩

/-- Go `MakeDir` (`fs.go:657-674`). -/
def goMakeDir (c : FileSystemCache) (srv : Server) (path : IRODSPath)
    (recurse : Bool) : Res Unit :=
  match srv.createCollection path recurse with
  | .error e => ⟨.err e, c, [.createCollection path recurse]⟩
  | .ok _ =>
    ⟨.ok (), (invalidateCacheForDirCreate c path).AddDirCache path [],
      [.createCollection path recurse]⟩

/-- Go `TruncateFile` (`fs.go:712-732`): a negative size is clamped to zero
before the protocol call. -/
def goTruncateFile (c : FileSystemCache) (srv : Server) (path : IRODSPath)
    (size : Int) : Res Unit :=
  let size' := if size < 0 then 0 else size
  match srv.truncateDataObject path size' with
  | .error e => ⟨.err e, c, [.truncateDataObject path size']⟩
  | .ok _ =>
    ⟨.ok (), invalidateCacheForFileUpdate c path, [.truncateDataObject path size']⟩

/-- Go `ReplicateFile` (`fs.go:735-751`). -/
def goReplicateFile (c : FileSystemCache) (srv : Server) (path : IRODSPath)
    (resource : String) (update : Bool) : Res Unit :=
  match srv.replicateDataObject path resource update false with
  | .error e => ⟨.err e, c, [.replicateDataObject path resource update false]⟩
  | .ok _ =>
    ⟨.ok (), invalidateCacheForFileUpdate c path,
      [.replicateDataObject path resource update false]⟩

/-- Go `RenameFileToFile` (`fs.go:635-654`). -/
def goRenameFileToFile (c : FileSystemCache) (srv : Server)
    (srcPath destPath : IRODSPath) : Res Unit :=
  match srv.moveDataObject srcPath destPath with
  | .error e => ⟨.err e, c, [.moveDataObject srcPath destPath]⟩
  | .ok _ =>
    let c1 := invalidateCacheForFileRemove (c.AddNegativeEntryCache srcPath) srcPath
    ⟨.ok (), invalidateCacheForFileCreate c1 destPath,
      [.moveDataObject srcPath destPath]⟩

/-- Go `RenameFile` (`fs.go:620-632`): when the destination is an existing
directory, the source file name is appended to it before delegating to
`RenameFileToFile`. -/
def goRenameFile (c : FileSystemCache) (srv : Server)
    (srcPath destPath : IRODSPath) : Res Unit :=
  let r := goExistsDir c srv destPath
  match r.result with
  | .ok b =>
    let destFilePath :=
      if b then makeIRODSPath destPath (getIRODSPathFileName srcPath) else destPath
    let r2 := goRenameFileToFile r.cache srv srcPath destFilePath
    ⟨r2.result, r2.cache, r.reqs ++ r2.reqs⟩
  | .err e => ⟨.err e, r.cache, r.reqs⟩
  | .panicked => ⟨.panicked, r.cache, r.reqs⟩

/-- Go `RenameDirToDir` (`fs.go:595-617`). -/
def goRenameDirToDir (c : FileSystemCache) (srv : Server)
    (srcPath destPath : IRODSPath) : Res Unit :=
  match srv.moveCollection srcPath destPath with
  | .error e => ⟨.err e, c, [.moveCollection srcPath destPath]⟩
  | .ok _ =>
    let c1 := (c.RemoveAllNegativeEntryCacheForPath srcPath).AddNegativeEntryCache
      srcPath
    let c2 := invalidateCacheForDirRemove (cacheFuel c1) c1 srcPath true
    ⟨.ok (), invalidateCacheForDirCreate c2 destPath,
      [.moveCollection srcPath destPath]⟩

/-- Go `RenameDir` (`fs.go:580-592`). -/
def goRenameDir (c : FileSystemCache) (srv : Server)
    (srcPath destPath : IRODSPath) : Res Unit :=
  let r := goExistsDir c srv destPath
  match r.result with
  | .ok b =>
    let destDirPath :=
      if b then makeIRODSPath destPath (getIRODSPathFileName srcPath) else destPath
    let r2 := goRenameDirToDir r.cache srv srcPath destDirPath
    ⟨r2.result, r2.cache, r.reqs ++ r2.reqs⟩
  | .err e => ⟨.err e, r.cache, r.reqs⟩
  | .panicked => ⟨.panicked, r.cache, r.reqs⟩

/-- Go `CopyFileToFile` (`fs.go:692-709`). -/
def goCopyFileToFile (c : FileSystemCache) (srv : Server)
    (srcPath destPath : IRODSPath) : Res Unit :=
  match srv.copyDataObject srcPath destPath with
  | .error e => ⟨.err e, c, [.copyDataObject srcPath destPath]⟩
  | .ok _ =>
    ⟨.ok (), invalidateCacheForFileCreate c destPath,
      [.copyDataObject srcPath destPath]⟩

/-! ### ACL listing and group expansion (`fs.go:114-137`, `fs.go:375-520`) -/

/-- Go `ListGroupUsers` (`fs.go:114-137`): cached per group. -/
def goListGroupUsers (c : FileSystemCache) (srv : Server) (group : String) :
    Res (List IRODSUser) :=
  match c.GetGroupUsersCache group with
  | some cachedUsers => ⟨.ok cachedUsers, c, []⟩
  | none =>
    match srv.listGroupUsers group with
    | .error e => ⟨.err e, c, [.listGroupUsers group]⟩
    | .ok users => ⟨.ok users, c.AddGroupUsersCache group users, [.listGroupUsers group]⟩

/-- Go `ListDirACLs` (`fs.go:375-400`). -/
def goListDirACLs (c : FileSystemCache) (srv : Server) (path : IRODSPath) :
    Res (List IRODSAccess) :=
  match c.GetDirACLsCache path with
  | some cachedAccesses => ⟨.ok cachedAccesses, c, []⟩
  | none =>
    match srv.listCollectionAccess path with
    | .error e => ⟨.err e, c, [.listCollectionAccess path]⟩
    | .ok accesses =>
      ⟨.ok accesses, c.AddDirACLsCache path accesses, [.listCollectionAccess path]⟩

/-- Go `ListFileACLs` (`fs.go:447-477`): resolve the parent collection, then
list the data object's accesses. -/
def goListFileACLs (c : FileSystemCache) (srv : Server) (path : IRODSPath) :
    Res (List IRODSAccess) :=
  match c.GetFileACLsCache path with
  | some cachedAccesses => ⟨.ok cachedAccesses, c, []⟩
  | none =>
    let r := goGetCollection c srv (getIRODSPathDirname path)
    match r.result with
    | .err e => ⟨.err e, r.cache, r.reqs⟩
    | .panicked => ⟨.panicked, r.cache, r.reqs⟩
    | .ok collectionEntry =>
      match collectionEntry.Internal with
      | some (.coll collection) =>
        let fileName := getIRODSPathFileName path
        let reqs := r.reqs ++ [.listDataObjectAccess collection.Path fileName]
        match srv.listDataObjectAccess collection.Path fileName with
        | .error e => ⟨.err e, r.cache, reqs⟩
        | .ok accesses => ⟨.ok accesses, r.cache.AddFileACLsCache path accesses, reqs⟩
      | _ => ⟨.panicked, r.cache, r.reqs⟩

/-- The dedup key `fmt.Sprintf("%s||%s", userName, accessLevel)` used at
`fs.go:431`, `fs.go:434`, `fs.go:507` and `fs.go:510`. -/
def accessKey (userName accessLevel : String) : String :=
  userName ++ "||" ++ accessLevel

/-- The key a stored access computes for itself. -/
def selfKey (a : IRODSAccess) : String := accessKey a.UserName a.AccessLevel

/-- The per-member access built at `fs.go:422-428` / `fs.go:498-504`: the
group's path and access level with the member's name, zone and type. -/
def mkGroupUserAccess (access : IRODSAccess) (user : IRODSUser) : IRODSAccess where
  Path := access.Path
  UserName := user.Name
  UserZone := user.Zone
  UserType := user.Type'
  AccessLevel := access.AccessLevel

/-- The inner member loop at `fs.go:421-432` / `fs.go:497-508`: every member
of the group lands in `newAccessesMap` under its own dedup key. -/
def expandFold (access : IRODSAccess) (users : List IRODSUser)
    (m : List (String × IRODSAccess)) : List (String × IRODSAccess) :=
  users.foldl
    (fun acc user =>
      alPut acc (accessKey user.Name access.AccessLevel)
        (mkGroupUserAccess access user)) m

/-- The expansion loop body duplicated verbatim at `fs.go:413-436` and
`fs.go:489-512`: a group-typed access is expanded through `ListGroupUsers`,
a plain access lands in the map under its own key. -/
def goExpandAccessesLoop (c : FileSystemCache) (srv : Server)
    (accesses : List IRODSAccess) (m : List (String × IRODSAccess)) :
    Res (List (String × IRODSAccess)) :=
  match accesses with
  | [] => ⟨.ok m, c, []⟩
  | access :: rest =>
    if access.UserType = IRODSUserRodsGroup then
      let r := goListGroupUsers c srv access.UserName
      match r.result with
      | .err e => ⟨.err e, r.cache, r.reqs⟩
      | .panicked => ⟨.panicked, r.cache, r.reqs⟩
      | .ok users =>
        let r2 := goExpandAccessesLoop r.cache srv rest (expandFold access users m)
        ⟨r2.result, r2.cache, r.reqs ++ r2.reqs⟩
    else
      goExpandAccessesLoop c srv rest
        (alPut m (accessKey access.UserName access.AccessLevel) access)

/-- Go `ListDirACLsWithGroupUsers` (`fs.go:404-444`): list the plain ACLs, run
the expansion loop, then convert the map to an array. -/
def goListDirACLsWithGroupUsers (c : FileSystemCache) (srv : Server)
    (path : IRODSPath) : Res (List IRODSAccess) :=
  let r := goListDirACLs c srv path
  match r.result with
  | .err e => ⟨.err e, r.cache, r.reqs⟩
  | .panicked => ⟨.panicked, r.cache, r.reqs⟩
  | .ok accesses =>
    let r2 := goExpandAccessesLoop r.cache srv accesses []
    match r2.result with
    | .err e => ⟨.err e, r2.cache, r.reqs ++ r2.reqs⟩
    | .panicked => ⟨.panicked, r2.cache, r.reqs ++ r2.reqs⟩
    | .ok m => ⟨.ok (m.map Prod.snd), r2.cache, r.reqs ++ r2.reqs⟩

/-- Go `ListFileACLsWithGroupUsers` (`fs.go:480-520`). -/
def goListFileACLsWithGroupUsers (c : FileSystemCache) (srv : Server)
    (path : IRODSPath) : Res (List IRODSAccess) :=
  let r := goListFileACLs c srv path
  match r.result with
  | .err e => ⟨.err e, r.cache, r.reqs⟩
  | .panicked => ⟨.panicked, r.cache, r.reqs⟩
  | .ok accesses =>
    let r2 := goExpandAccessesLoop r.cache srv accesses []
    match r2.result with
    | .err e => ⟨.err e, r2.cache, r.reqs ++ r2.reqs⟩
    | .panicked => ⟨.panicked, r2.cache, r.reqs ++ r2.reqs⟩
    | .ok m => ⟨.ok (m.map Prod.snd), r2.cache, r.reqs ++ r2.reqs⟩

/-! ### Derived observations used by the theorems -/

/-- The `(src, dest)` pairs of the `MoveDataObject` requests in a trace. -/
def moveDataObjectReqs (reqs : List Req) : List (IRODSPath × IRODSPath) :=
  reqs.filterMap (fun r =>
    match r with
    | .moveDataObject s d => some (s, d)
    | _ => none)

/-- The `(src, dest)` pairs of the `MoveCollection` requests in a trace. -/
def moveCollectionReqs (reqs : List Req) : List (IRODSPath × IRODSPath) :=
  reqs.filterMap (fun r =>
    match r with
    | .moveCollection s d => some (s, d)
    | _ => none)

/-- The member list `ListGroupUsers` yields for a group from a given cache
state: the cached list if present, otherwise the server's answer.
`goListGroupUsers` returns exactly this and preserves it for every group. -/
def groupUsersOf (c : FileSystemCache) (srv : Server) (g : String) :
    Except IRODSError (List IRODSUser) :=
  match c.GetGroupUsersCache g with
  | some us => .ok us
  | none => srv.listGroupUsers g

/-- Provenance of an access produced by the group expansion: either a
non-group input access kept unchanged, or a per-member access carrying a
group access's level and a member's identity, the member drawn from the
group's member list as of cache state `c0`. -/
def GoodAccess (c0 : FileSystemCache) (srv : Server)
    (allowed : List IRODSAccess) (a : IRODSAccess) : Prop :=
  (∃ b ∈ allowed, b.UserType ≠ IRODSUserRodsGroup ∧ a = b) ∨
  (∃ b ∈ allowed, b.UserType = IRODSUserRodsGroup ∧
    ∃ us, groupUsersOf c0 srv b.UserName = .ok us ∧
      ∃ u ∈ us, a = mkGroupUserAccess b u)

/-- What the `WithGroupUsers` variants guarantee about their output `lst`
relative to the plain ACL list `accesses` and the cache state `c0` the
expansion loop starts from. -/
abbrev ACLExpansionPost (c0 : FileSystemCache) (srv : Server)
    (accesses lst : List IRODSAccess) : Prop :=
  lst.Pairwise (fun a b => ¬ (a.UserName = b.UserName ∧ a.AccessLevel = b.AccessLevel)) ∧
  (∀ a ∈ lst, GoodAccess c0 srv accesses a) ∧
  (∀ b ∈ accesses, b.UserType = IRODSUserRodsGroup →
    ∀ us, groupUsersOf c0 srv b.UserName = .ok us →
      ∀ u ∈ us, ∃ a ∈ lst, selfKey a = accessKey u.Name b.AccessLevel) ∧
  (∀ b ∈ accesses, b.UserType ≠ IRODSUserRodsGroup → ∃ a ∈ lst, selfKey a = selfKey b)

/-- A server identical to `srv` except that data-object listing and search
responses are stripped of the records with an empty replica list. -/
def filteredDataObjectServer (srv : Server) : Server :=
  { srv with
    listDataObjectsMasterReplica := fun p =>
      (srv.listDataObjectsMasterReplica p).map
        (List.filter (fun d => !d.Replicas.isEmpty))
    searchDataObjectsMasterReplicaByMeta := fun n v =>
      (srv.searchDataObjectsMasterReplicaByMeta n v).map
        (List.filter (fun d => !d.Replicas.isEmpty)) }

/-! ### Concrete fixtures for witnesses and counterexamples -/

/-- A directory entry cached at `/z/f`, for the cached-entry case of `Stat`. -/
def c1Entry : Entry := collectionToEntry ⟨3, ["z", "f"], "f", "rods", 0, 0⟩

/-- A cache holding a negative entry for `/z/f`. -/
def c1NegCache : FileSystemCache :=
  { emptyCache with negativeEntryCache := [["z", "f"]] }

/-- A cache holding an entry for `/z/f`. -/
def c1EntryCache : FileSystemCache :=
  { emptyCache with entryCache := [(["z", "f"], c1Entry)] }

/-- A cache whose `DirChildren` of `/z` is cached and omits `/z/f`. -/
def c1DirCache : FileSystemCache :=
  { emptyCache with dirCache := [(["z"], [["z", "g"]])] }

/-- The listed collection of the partial-cache scenario. -/
def c2Collection : IRODSCollection := ⟨1, ["z"], "z", "rods", 0, 0⟩

/-- The sub-collection the first query returns. -/
def c2SubColl : IRODSCollection := ⟨2, ["z", "a"], "a", "rods", 0, 0⟩

/-- A server whose sub-collection query succeeds and whose data-object query
(and metadata searches, likewise split) fail. -/
def c2Server : Server :=
  { noServer with
    listSubCollections := fun _ => .ok [c2SubColl]
    listDataObjectsMasterReplica := fun _ => .error (.general "boom")
    searchCollectionsByMeta := fun _ _ => .ok [c2SubColl]
    searchDataObjectsMasterReplicaByMeta := fun _ _ => .error (.general "boom") }

/-- The cached parent entry of the flag-off remove scenario. -/
def c3ParentEntry : Entry := collectionToEntry ⟨7, ["z"], "z", "rods", 0, 0⟩

/-- A cache with `invalidateParentEntryCacheImmediately` off and the parent
entry of `/z/f` cached. -/
def c3FlagOffCache : FileSystemCache :=
  { emptyCache with
    entryCache := [(["z"], c3ParentEntry)]
    invalidateParentEntryCacheImmediately := false }

/-- A cache with the default flag, `/z/f` and its parent cached, children of
`/z` cached, plus ACL and metadata records for `/z/f`. -/
def c3FlagOnCache : FileSystemCache :=
  { emptyCache with
    entryCache := [(["z"], c3ParentEntry)]
    dirCache := [(["z"], [["z", "f"], ["z", "g"]])]
    fileACLCache := [(["z", "f"], [])]
    metadataCache := [(["z", "f"], [])] }

/-- A server accepting data-object deletion. -/
def c3Server : Server := { noServer with deleteDataObject := fun _ _ => .ok () }

/-- A server accepting collection creation. -/
def c4Server : Server := { noServer with createCollection := fun _ _ => .ok () }

/-- A server accepting truncation and replication. -/
def c8Server : Server :=
  { noServer with
    truncateDataObject := fun _ _ => .ok ()
    replicateDataObject := fun _ _ _ _ => .ok () }

/-- A cache populated across all namespaces, to exhibit the file-update
frame. -/
def c8Cache : FileSystemCache :=
  { emptyCache with
    entryCache := [(["z"], c3ParentEntry), (["z", "f"], c1Entry)]
    negativeEntryCache := [["z", "f"], ["z", "g"]]
    dirCache := [(["z"], [["z", "f"]])]
    dirACLCache := [(["z"], [])]
    fileACLCache := [(["z", "f"], [])]
    metadataCache := [(["z", "f"], [])] }

/-- A data object with `ID > 0` and no replicas. -/
def c9DataObject : IRODSDataObject := ⟨5, ["z", "f"], "f", 3, []⟩

/-- A server returning the no-replica data object for `/z/f`. -/
def c9Server : Server :=
  { noServer with
    getCollection := fun p => .ok ⟨1, p, "z", "rods", 0, 0⟩
    getDataObjectMasterReplica := fun _ _ => .ok c9DataObject }

/-- A server on which every path stats as an existing directory, and which
accepts moves. -/
def c7Server : Server :=
  { noServer with
    getCollection := fun p => .ok ⟨9, p, getIRODSPathFileName p, "rods", 0, 0⟩
    moveDataObject := fun _ _ => .ok ()
    moveCollection := fun _ _ => .ok () }

/-- A group-typed access on `/z`. -/
def c6GroupAccess : IRODSAccess := ⟨["z"], "grp", "zn", IRODSUserRodsGroup, "own"⟩

/-- A plain user access on `/z`. -/
def c6UserAccess : IRODSAccess := ⟨["z"], "alice", "zn", "rodsuser", "read"⟩

/-- The single member of group `grp`. -/
def c6Member : IRODSUser := ⟨"bob", "zn", "rodsuser"⟩

/-- A server listing one group access and one plain access on collections,
with one member in the group. -/
def c6Server : Server :=
  { noServer with
    listCollectionAccess := fun _ => .ok [c6GroupAccess, c6UserAccess]
    listGroupUsers := fun _ => .ok [c6Member] }

/-! ## Theorems -/

/-! ### Association-list and set lemmas -/

theorem alGet_cons {κ α : Type} [DecidableEq κ] (a : κ) (b : α) (tl : List (κ × α)) (q : κ) :
    alGet ((a, b) :: tl) q = if a = q then some b else alGet tl q := by
  by_cases h : a = q <;> simp [alGet, List.find?, h]

theorem alRemove_cons {κ α : Type} [DecidableEq κ] (a : κ) (b : α) (tl : List (κ × α)) (k : κ) :
    alRemove ((a, b) :: tl) k =
      if a = k then alRemove tl k else (a, b) :: alRemove tl k := by
  by_cases h : a = k <;> simp [alRemove, List.filter_cons, h]

theorem alGet_alRemove {κ α : Type} [DecidableEq κ] (l : List (κ × α)) (k q : κ) :
    alGet (alRemove l k) q = if q = k then none else alGet l q := by
  induction l with
  | nil => simp [alGet, alRemove]
  | cons hd tl ih =>
    obtain ⟨a, b⟩ := hd
    rw [alRemove_cons]
    by_cases hak : a = k
    · rw [if_pos hak, ih, alGet_cons]
      by_cases hq : q = k
      · simp [hq]
      · rw [if_neg hq, if_neg hq, if_neg (by rintro rfl; exact hq hak)]
    · rw [if_neg hak, alGet_cons, alGet_cons, ih]
      by_cases haq : a = q
      · subst haq
        rw [if_pos rfl, if_pos rfl, if_neg (by rintro rfl; exact hak rfl)]
      · rw [if_neg haq, if_neg haq]

theorem alGet_alPut {κ α : Type} [DecidableEq κ] (l : List (κ × α)) (k q : κ) (v : α) :
    alGet (alPut l k v) q = if q = k then some v else alGet l q := by
  unfold alPut
  rw [alGet_cons, alGet_alRemove]
  by_cases hq : q = k
  · simp [hq]
  · rw [if_neg (by rintro rfl; exact hq rfl), if_neg hq, if_neg hq]

theorem mem_setAdd (l : List IRODSPath) (p q : IRODSPath) :
    q ∈ setAdd l p ↔ q ∈ l ∨ q = p := by
  by_cases h : p ∈ l
  · simp only [setAdd, if_pos h]
    constructor
    · exact Or.inl
    · rintro (hq | rfl) <;> assumption
  · simp [setAdd, if_neg h, List.mem_cons, or_comm]

theorem mem_setRemove (l : List IRODSPath) (p q : IRODSPath) :
    q ∈ setRemove l p ↔ q ∈ l ∧ q ≠ p := by
  simp [setRemove, List.mem_filter]

/-! ### C1: Stat is cache-first with a negative-cache short-circuit -/

/-- C1: for every path `p`, `Stat(p)` is cache-first with a negative-cache
short-circuit: a negative entry for the normalized `p` makes `Stat` fail
`NotFound` with no server request and no state change; a cached entry for
`p` is returned directly with no server traffic; and when `DirChildren` of
`parent(p)` is cached and does not contain `p`, `Stat` fails `NotFound`
with no server request, recording a negative entry for `p`. -/
theorem claim_C1_stat_cache_first (c : FileSystemCache) (srv : Server)
    (p : IRODSPath) :
    (c.HasNegativeEntryCache p = true →
      goStat c srv p =
        ⟨.err (.fileNotFound "could not find a data object or a directory"),
          c, []⟩) ∧
    (∀ e, c.HasNegativeEntryCache p = false → c.GetEntryCache p = some e →
      goStat c srv p = ⟨.ok e, c, []⟩) ∧
    (∀ children, c.HasNegativeEntryCache p = false → c.GetEntryCache p = none →
      c.GetDirCache (getIRODSPathDirname p) = some children → p ∉ children →
      goStat c srv p =
        ⟨.err (.fileNotFound "could not find a data object or a directory"),
          c.AddNegativeEntryCache p, []⟩) := by
  refine ⟨fun hneg => ?_, fun e hneg hent => ?_, fun children hneg hent hdir hmem => ?_⟩
  · simp [goStat, hneg]
  · simp [goStat, hneg, hent]
  · simp [goStat, hneg, hent, hdir, hmem]

/-- Witness for C1 at the three concrete cache states. -/
theorem claim_C1_stat_cache_first_witness :
    goStat c1NegCache noServer ["z", "f"] =
      ⟨.err (.fileNotFound "could not find a data object or a directory"),
        c1NegCache, []⟩ ∧
    goStat c1EntryCache noServer ["z", "f"] = ⟨.ok c1Entry, c1EntryCache, []⟩ ∧
    goStat c1DirCache noServer ["z", "f"] =
      ⟨.err (.fileNotFound "could not find a data object or a directory"),
        c1DirCache.AddNegativeEntryCache ["z", "f"], []⟩ :=
  ⟨(claim_C1_stat_cache_first c1NegCache noServer ["z", "f"]).1 (by decide),
   (claim_C1_stat_cache_first c1EntryCache noServer ["z", "f"]).2.1 c1Entry
     (by decide) (by decide),
   (claim_C1_stat_cache_first c1DirCache noServer ["z", "f"]).2.2 [["z", "g"]]
     (by decide) (by decide) (by decide) (by decide)⟩

/-! ### C5: the existence checks never propagate errors -/

/-- C5: `Exists`, `ExistsDir` and `ExistsFile` return `false` whenever the
underlying `Stat`, `StatDir` or `StatFile` returns any error — not only
`NotFound` — and never return an error themselves. -/
theorem claim_C5_exists_swallows_errors (c : FileSystemCache) (srv : Server)
    (p : IRODSPath) :
    (∀ e, (goStat c srv p).result = .err e → (goExists c srv p).result = .ok false) ∧
    (∀ e, (goStatDir c srv p).result = .err e →
      (goExistsDir c srv p).result = .ok false) ∧
    (∀ e, (goStatFile c srv p).result = .err e →
      (goExistsFile c srv p).result = .ok false) ∧
    (∀ e, (goExists c srv p).result ≠ .err e) ∧
    (∀ e, (goExistsDir c srv p).result ≠ .err e) ∧
    (∀ e, (goExistsFile c srv p).result ≠ .err e) := by
  refine ⟨fun e h => ?_, fun e h => ?_, fun e h => ?_, fun e => ?_, fun e => ?_,
    fun e => ?_⟩
  · simp [goExists, h]
  · simp [goExistsDir, h]
  · simp [goExistsFile, h]
  · cases hr : (goStat c srv p).result <;> simp [goExists, hr]
  · cases hr : (goStatDir c srv p).result <;> simp [goExistsDir, hr]
  · cases hr : (goStatFile c srv p).result <;> simp [goExistsFile, hr]

/-- Witness for C5: a server failing with a generic (non-`NotFound`) error
still yields `false` from all three existence checks. -/
theorem claim_C5_exists_swallows_errors_witness :
    (goExists emptyCache noServer ["z"]).result = .ok false ∧
    (goExistsDir emptyCache noServer ["z"]).result = .ok false ∧
    (goExistsFile emptyCache noServer ["z"]).result = .ok false :=
  ⟨(claim_C5_exists_swallows_errors emptyCache noServer ["z"]).1
      (.general "no response") (by decide),
   (claim_C5_exists_swallows_errors emptyCache noServer ["z"]).2.1
      (.general "no response") (by decide),
   (claim_C5_exists_swallows_errors emptyCache noServer ["z"]).2.2.1
      (.general "no response") (by decide)⟩

/-! ### C10: empty-replica data objects are silently skipped -/

theorem goCacheDataObjectEntries_filter_empty (dobjs : List IRODSDataObject) :
    ∀ c, goCacheDataObjectEntries c (dobjs.filter (fun d => !d.Replicas.isEmpty)) =
      goCacheDataObjectEntries c dobjs := by
  induction dobjs with
  | nil => intro c; rfl
  | cons dobj rest ih =>
    intro c
    obtain ⟨oid, opath, oname, osize, replicas⟩ := dobj
    cases replicas with
    | nil => simp [List.filter_cons, goCacheDataObjectEntries, ih]
    | cons replica rs => simp [List.filter_cons, goCacheDataObjectEntries, ih]

/-- C10: an empty-replica data-object record contributes nothing to `List`
or `SearchByMeta`: deleting all such records from the server's responses
changes neither the returned entries nor the cache nor the traffic, so no
entry- or negative-entry-cache update happens for such a record. -/
theorem claim_C10_empty_replicas_skipped (c : FileSystemCache) (srv : Server)
    (collection : IRODSCollection) (metaName metaValue : String) :
    goListEntries c (filteredDataObjectServer srv) collection =
      goListEntries c srv collection ∧
    goSearchEntriesByMeta c (filteredDataObjectServer srv) metaName metaValue =
      goSearchEntriesByMeta c srv metaName metaValue := by
  constructor
  · unfold goListEntries
    cases hdc : c.GetDirCache collection.Path with
    | some paths =>
      by_cases huse : (goCollectCachedEntries c paths).2
      · simp [huse]
      · simp only [huse]
        unfold goListEntriesFetch filteredDataObjectServer
        cases h1 : srv.listSubCollections collection.Path with
        | error e => simp
        | ok collections =>
          simp only []
          cases h2 : srv.listDataObjectsMasterReplica collection.Path with
          | error e => simp [h2, Except.map]
          | ok dobjs =>
            simp [h2, Except.map, goCacheDataObjectEntries_filter_empty]
    | none =>
      unfold goListEntriesFetch filteredDataObjectServer
      cases h1 : srv.listSubCollections collection.Path with
      | error e => simp
      | ok collections =>
        simp only []
        cases h2 : srv.listDataObjectsMasterReplica collection.Path with
        | error e => simp [h2, Except.map]
        | ok dobjs =>
          simp [h2, Except.map, goCacheDataObjectEntries_filter_empty]
  · unfold goSearchEntriesByMeta filteredDataObjectServer
    cases h1 : srv.searchCollectionsByMeta metaName metaValue with
    | error e => simp
    | ok collections =>
      simp only []
      cases h2 : srv.searchDataObjectsMasterReplicaByMeta metaName metaValue with
      | error e => simp [h2, Except.map]
      | ok dobjs =>
        simp [h2, Except.map, goCacheDataObjectEntries_filter_empty]

/-! ### C2: cache updates are not all-or-nothing on failure -/

theorem goCacheCollectionEntries_entry_isSome (colls : List IRODSCollection) :
    ∀ c q, (c.GetEntryCache q).isSome = true →
      (((goCacheCollectionEntries c colls).2).GetEntryCache q).isSome = true := by
  induction colls with
  | nil => intro c q h; exact h
  | cons coll rest ih =>
    intro c q h
    rw [goCacheCollectionEntries]
    apply ih
    simp only [FileSystemCache.GetEntryCache, FileSystemCache.AddEntryCache,
      FileSystemCache.RemoveNegativeEntryCache] at h ⊢
    rw [alGet_alPut]
    by_cases hq : q = (collectionToEntry coll).Path
    · simp [hq]
    · rw [if_neg hq]; exact h

theorem goCacheCollectionEntries_all_cached (colls : List IRODSCollection) :
    ∀ c, ∀ coll ∈ colls,
      (((goCacheCollectionEntries c colls).2).GetEntryCache coll.Path).isSome
        = true := by
  induction colls with
  | nil => intro c coll h; cases h
  | cons hd rest ih =>
    intro c coll hmem
    rcases List.mem_cons.mp hmem with rfl | hmem
    · rw [goCacheCollectionEntries]
      apply goCacheCollectionEntries_entry_isSome
      simp [FileSystemCache.GetEntryCache, FileSystemCache.AddEntryCache,
        FileSystemCache.RemoveNegativeEntryCache, alGet_alPut, collectionToEntry]
    · rw [goCacheCollectionEntries]
      exact ih _ coll hmem

theorem goCacheCollectionEntries_dirCache (colls : List IRODSCollection) :
    ∀ c, ((goCacheCollectionEntries c colls).2).dirCache = c.dirCache := by
  induction colls with
  | nil => intro c; rfl
  | cons hd rest ih => intro c; rw [goCacheCollectionEntries]; exact ih _

/-- C2 counterexample: with the first protocol query of `List` succeeding
(one sub-collection `/z/a`) and the second failing, the call returns the
error yet the cache is not as it was: the sub-collection's entry from the
first query is cached. -/
theorem claim_C2_counterexample :
    (goListEntries emptyCache c2Server c2Collection).result =
      .err (.general "boom") ∧
    (goListEntries emptyCache c2Server c2Collection).cache ≠ emptyCache ∧
    (goListEntries emptyCache c2Server c2Collection).cache.GetEntryCache
      ["z", "a"] = some (collectionToEntry c2SubColl) :=
  ⟨by decide, by decide, by decide⟩

/-- C2 as amended: `listEntries` and `searchEntriesByMeta` update the cache
per item, not transactionally.  When the second protocol query fails after
the first succeeded, the error is returned, every collection entry cached
by the first query remains cached — contrary to the original claim — while
the `DirChildren` record of the listed path is not written. -/
theorem claim_C2_amended_per_item_cache_on_failure (c : FileSystemCache)
    (srv : Server) (collection : IRODSCollection)
    (collections collections2 : List IRODSCollection) (e e2 : IRODSError)
    (metaName metaValue : String) :
    c.GetDirCache collection.Path = none →
    srv.listSubCollections collection.Path = .ok collections →
    srv.listDataObjectsMasterReplica collection.Path = .error e →
    srv.searchCollectionsByMeta metaName metaValue = .ok collections2 →
    srv.searchDataObjectsMasterReplicaByMeta metaName metaValue = .error e2 →
    (goListEntries c srv collection).result = .err e ∧
    (∀ coll ∈ collections,
      ((goListEntries c srv collection).cache.GetEntryCache coll.Path).isSome
        = true) ∧
    (goListEntries c srv collection).cache.dirCache = c.dirCache ∧
    (goSearchEntriesByMeta c srv metaName metaValue).result = .err e2 ∧
    (∀ coll ∈ collections2,
      ((goSearchEntriesByMeta c srv metaName metaValue).cache.GetEntryCache
        coll.Path).isSome = true) := by
  intro hdc h1 h2 h3 h4
  have hlist : goListEntries c srv collection =
      ⟨.err e, (goCacheCollectionEntries c collections).2,
        [.listSubCollections collection.Path,
         .listDataObjectsMasterReplica collection.Path]⟩ := by
    unfold goListEntries goListEntriesFetch
    rw [hdc, h1, h2]
  have hsearch : goSearchEntriesByMeta c srv metaName metaValue =
      ⟨.err e2, (goCacheCollectionEntries c collections2).2,
        [.searchCollectionsByMeta metaName metaValue,
         .searchDataObjectsMasterReplicaByMeta metaName metaValue]⟩ := by
    unfold goSearchEntriesByMeta
    rw [h3, h4]
  refine ⟨by rw [hlist], fun coll hm => ?_, by
    rw [hlist]; exact goCacheCollectionEntries_dirCache collections c,
    by rw [hsearch], fun coll hm => ?_⟩
  · rw [hlist]; exact goCacheCollectionEntries_all_cached collections c coll hm
  · rw [hsearch]; exact goCacheCollectionEntries_all_cached collections2 c coll hm

/-- Witness for the amended C2 at the concrete failing server. -/
theorem claim_C2_amended_per_item_cache_on_failure_witness :
    (goListEntries emptyCache c2Server c2Collection).result =
      .err (.general "boom") ∧
    ((goListEntries emptyCache c2Server c2Collection).cache.GetEntryCache
      ["z", "a"]).isSome = true ∧
    (goListEntries emptyCache c2Server c2Collection).cache.dirCache =
      emptyCache.dirCache ∧
    (goSearchEntriesByMeta emptyCache c2Server "n" "v").result =
      .err (.general "boom") := by
  have H := claim_C2_amended_per_item_cache_on_failure emptyCache c2Server
    c2Collection [c2SubColl] [c2SubColl] (.general "boom") (.general "boom")
    "n" "v" (by decide) rfl rfl rfl rfl
  exact ⟨H.1, H.2.1 c2SubColl (by decide), H.2.2.1, H.2.2.2.1⟩

/-! ### C8: file-content updates evict exactly the file's own records -/

/-- C8: after a successful `TruncateFile` or `ReplicateFile` on `p`, exactly
`Entry[p]` and `NegativeEntry[p]` are gone; all other entry and negative
records and the whole `DirChildren`, ACL and metadata namespaces — in
particular everything keyed by `parent(p)` — are untouched. -/
theorem claim_C8_file_update_frame (c : FileSystemCache) (srv : Server)
    (p : IRODSPath) (size : Int) (resource : String) (upd : Bool) :
    srv.truncateDataObject p (if size < 0 then 0 else size) = .ok () →
    srv.replicateDataObject p resource upd false = .ok () →
    (goTruncateFile c srv p size).result = .ok () ∧
    (goReplicateFile c srv p resource upd).result = .ok () ∧
    (goTruncateFile c srv p size).cache = (goReplicateFile c srv p resource upd).cache ∧
    (∀ q, (goTruncateFile c srv p size).cache.GetEntryCache q =
      if q = p then none else c.GetEntryCache q) ∧
    (∀ q, (goTruncateFile c srv p size).cache.HasNegativeEntryCache q =
      if q = p then false else c.HasNegativeEntryCache q) ∧
    (goTruncateFile c srv p size).cache.dirCache = c.dirCache ∧
    (goTruncateFile c srv p size).cache.dirACLCache = c.dirACLCache ∧
    (goTruncateFile c srv p size).cache.fileACLCache = c.fileACLCache ∧
    (goTruncateFile c srv p size).cache.metadataCache = c.metadataCache := by
  intro htr hrep
  have ht : goTruncateFile c srv p size =
      ⟨.ok (), invalidateCacheForFileUpdate c p,
        [.truncateDataObject p (if size < 0 then 0 else size)]⟩ := by
    simp only [goTruncateFile]
    rw [htr]
  have hr : goReplicateFile c srv p resource upd =
      ⟨.ok (), invalidateCacheForFileUpdate c p,
        [.replicateDataObject p resource upd false]⟩ := by
    simp only [goReplicateFile]
    rw [hrep]
  rw [ht, hr]
  refine ⟨rfl, rfl, rfl, fun q => ?_, fun q => ?_, rfl, rfl, rfl, rfl⟩
  · simp only [invalidateCacheForFileUpdate, FileSystemCache.RemoveEntryCache,
      FileSystemCache.RemoveNegativeEntryCache, FileSystemCache.GetEntryCache]
    exact alGet_alRemove c.entryCache p q
  · simp only [invalidateCacheForFileUpdate, FileSystemCache.RemoveEntryCache,
      FileSystemCache.RemoveNegativeEntryCache, FileSystemCache.HasNegativeEntryCache]
    by_cases hq : q = p
    · subst hq
      simp [mem_setRemove]
    · rw [if_neg hq]
      exact decide_eq_decide.mpr (by simp [mem_setRemove, hq])

/-- Witness for C8 on a populated cache. -/
theorem claim_C8_file_update_frame_witness :
    (goTruncateFile c8Cache c8Server ["z", "f"] 3).result = .ok () ∧
    (goReplicateFile c8Cache c8Server ["z", "f"] "r" false).result = .ok () ∧
    (goTruncateFile c8Cache c8Server ["z", "f"] 3).cache.GetEntryCache ["z", "f"]
      = none ∧
    (goTruncateFile c8Cache c8Server ["z", "f"] 3).cache.GetEntryCache ["z"]
      = c8Cache.GetEntryCache ["z"] ∧
    (goTruncateFile c8Cache c8Server ["z", "f"] 3).cache.HasNegativeEntryCache
      ["z", "f"] = false ∧
    (goTruncateFile c8Cache c8Server ["z", "f"] 3).cache.dirCache =
      c8Cache.dirCache := by
  have H := claim_C8_file_update_frame c8Cache c8Server ["z", "f"] 3 "r" false
    rfl rfl
  exact ⟨H.1, H.2.1,
    (H.2.2.2.1 ["z", "f"]).trans (if_pos rfl),
    (H.2.2.2.1 ["z"]).trans (if_neg (by decide)),
    (H.2.2.2.2.1 ["z", "f"]).trans (if_pos rfl),
    H.2.2.2.2.2.1⟩

/-! ### C3: cache state after a successful RemoveFile -/

/-- C3 counterexample: with `invalidateParentEntryCacheImmediately` off, a
successful `RemoveFile("/z/f")` leaves `Entry["/z"]` — the parent's entry —
in the cache, contrary to the claim's unconditional `Entry[parent(p)]
is absent`. -/
theorem claim_C3_counterexample :
    (goRemoveFile c3FlagOffCache c3Server ["z", "f"] true).result = .ok () ∧
    (goRemoveFile c3FlagOffCache c3Server ["z", "f"] true).cache.GetEntryCache
      ["z"] = some c3ParentEntry :=
  ⟨by decide, by decide⟩

theorem invalidateCacheForFileRemove_fields (c : FileSystemCache) (p : IRODSPath) :
    (invalidateCacheForFileRemove c p).negativeEntryCache = c.negativeEntryCache ∧
    (invalidateCacheForFileRemove c p).entryCache =
      (if c.invalidateParentEntryCacheImmediately then
        alRemove (alRemove c.entryCache p) (getIRODSPathDirname p)
      else alRemove c.entryCache p) ∧
    (invalidateCacheForFileRemove c p).fileACLCache = alRemove c.fileACLCache p ∧
    (invalidateCacheForFileRemove c p).metadataCache = alRemove c.metadataCache p ∧
    (invalidateCacheForFileRemove c p).dirCache =
      alPut c.dirCache (getIRODSPathDirname p)
        (((alGet c.dirCache (getIRODSPathDirname p)).getD []).filter
          (fun q => decide (q ≠ p))) := by
  by_cases hflag : c.invalidateParentEntryCacheImmediately <;>
    simp [invalidateCacheForFileRemove, dropFromParentDirCache,
      FileSystemCache.RemoveParentDirCache, FileSystemCache.RemoveEntryCache,
      FileSystemCache.RemoveFileACLsCache, FileSystemCache.RemoveMetadataCache,
      FileSystemCache.AddDirCache, FileSystemCache.GetDirCache, hflag]

/-- C3 as amended: after a successful `RemoveFile(p, force)`, the negative
entry for `p` is present; `Entry[p]`, `FileACL[p]` and `Metadata[p]` are
absent; `p` is not among `DirChildren[parent(p)]`; and `Entry[parent(p)]` is
absent provided `invalidateParentEntryCacheImmediately` is on (its default)
— with the flag off the parent entry is left as it was. -/
theorem claim_C3_remove_file_cache_post (c : FileSystemCache) (srv : Server)
    (p : IRODSPath) (force : Bool) :
    srv.deleteDataObject p force = .ok () →
    (goRemoveFile c srv p force).result = .ok () ∧
    (goRemoveFile c srv p force).cache.HasNegativeEntryCache p = true ∧
    (goRemoveFile c srv p force).cache.GetEntryCache p = none ∧
    (goRemoveFile c srv p force).cache.GetFileACLsCache p = none ∧
    (goRemoveFile c srv p force).cache.GetMetadataCache p = none ∧
    (∀ l, (goRemoveFile c srv p force).cache.GetDirCache (getIRODSPathDirname p)
      = some l → p ∉ l) ∧
    (c.invalidateParentEntryCacheImmediately = true →
      (goRemoveFile c srv p force).cache.GetEntryCache (getIRODSPathDirname p)
        = none) := by
  intro h
  have hrf : goRemoveFile c srv p force =
      ⟨.ok (), invalidateCacheForFileRemove (c.AddNegativeEntryCache p) p,
        [.deleteDataObject p force]⟩ := by
    unfold goRemoveFile
    rw [h]
  obtain ⟨hneg, hent, hacl, hmeta, hdir⟩ :=
    invalidateCacheForFileRemove_fields (c.AddNegativeEntryCache p) p
  have hflagad : (c.AddNegativeEntryCache p).invalidateParentEntryCacheImmediately
      = c.invalidateParentEntryCacheImmediately := rfl
  rw [hflagad] at hent
  refine ⟨by rw [hrf], ?_, ?_, ?_, ?_, fun l hl => ?_, fun hflag => ?_⟩
  · rw [hrf]
    show decide (p ∈ (invalidateCacheForFileRemove (c.AddNegativeEntryCache p)
      p).negativeEntryCache) = true
    rw [hneg]
    simp [FileSystemCache.AddNegativeEntryCache, mem_setAdd]
  · rw [hrf]
    show alGet (invalidateCacheForFileRemove (c.AddNegativeEntryCache p)
      p).entryCache p = none
    rw [hent]
    by_cases hflag : c.invalidateParentEntryCacheImmediately
    · rw [if_pos hflag, alGet_alRemove]
      by_cases hp : p = getIRODSPathDirname p
      · rw [if_pos hp]
      · rw [if_neg hp, alGet_alRemove, if_pos rfl]
    · rw [if_neg hflag, alGet_alRemove, if_pos rfl]
  · rw [hrf]
    show alGet (invalidateCacheForFileRemove (c.AddNegativeEntryCache p)
      p).fileACLCache p = none
    rw [hacl]
    exact (alGet_alRemove _ _ _).trans (if_pos rfl)
  · rw [hrf]
    show alGet (invalidateCacheForFileRemove (c.AddNegativeEntryCache p)
      p).metadataCache p = none
    rw [hmeta]
    exact (alGet_alRemove _ _ _).trans (if_pos rfl)
  · rw [hrf] at hl
    replace hl : alGet (invalidateCacheForFileRemove (c.AddNegativeEntryCache p)
      p).dirCache (getIRODSPathDirname p) = some l := hl
    rw [hdir, alGet_alPut, if_pos rfl] at hl
    cases hl
    simp [List.mem_filter]
  · rw [hrf]
    show alGet (invalidateCacheForFileRemove (c.AddNegativeEntryCache p)
      p).entryCache (getIRODSPathDirname p) = none
    rw [hent, if_pos hflag, alGet_alRemove, if_pos rfl]

/-- Witness for the amended C3 on a populated flag-on cache. -/
theorem claim_C3_remove_file_cache_post_witness :
    (goRemoveFile c3FlagOnCache c3Server ["z", "f"] true).result = .ok () ∧
    (goRemoveFile c3FlagOnCache c3Server ["z", "f"] true).cache.HasNegativeEntryCache
      ["z", "f"] = true ∧
    (goRemoveFile c3FlagOnCache c3Server ["z", "f"] true).cache.GetEntryCache
      ["z", "f"] = none ∧
    (goRemoveFile c3FlagOnCache c3Server ["z", "f"] true).cache.GetFileACLsCache
      ["z", "f"] = none ∧
    (goRemoveFile c3FlagOnCache c3Server ["z", "f"] true).cache.GetMetadataCache
      ["z", "f"] = none ∧
    (["z", "f"] : IRODSPath) ∉ [(["z", "g"] : IRODSPath)] ∧
    (goRemoveFile c3FlagOnCache c3Server ["z", "f"] true).cache.GetEntryCache
      ["z"] = none := by
  have H := claim_C3_remove_file_cache_post c3FlagOnCache c3Server ["z", "f"] true
    rfl
  exact ⟨H.1, H.2.1, H.2.2.1, H.2.2.2.1, H.2.2.2.2.1,
    H.2.2.2.2.2.1 [["z", "g"]] (by decide), H.2.2.2.2.2.2 (by decide)⟩

/-! ### C4: creation updates DirChildren of an unlisted parent -/

/-- C4, evaluated at the failing input: with `DirChildren["/z/home/u"]` not
cached, a successful `MakeDir("/z/home/u/d")` nevertheless writes
`DirChildren["/z/home/u"] = ["/z/home/u/d"]` — the Go code appends to the
nil slice and stores it — where the claim (and spec §4.C, `append ... if
cached`) requires the record to remain absent.  The file-create
invalidation has the same slip. -/
theorem claim_C4_create_failing_input :
    emptyCache.GetDirCache ["z", "home", "u"] = none ∧
    (goMakeDir emptyCache c4Server ["z", "home", "u", "d"] false).result = .ok () ∧
    (goMakeDir emptyCache c4Server ["z", "home", "u", "d"] false).cache.GetDirCache
      ["z", "home", "u"] = some [["z", "home", "u", "d"]] ∧
    (invalidateCacheForFileCreate emptyCache ["z", "f"]).GetDirCache ["z"]
      = some [["z", "f"]] :=
  ⟨by decide, by decide, by decide, by decide⟩

/-! ### C9: getDataObject indexes an empty replica list -/

/-- C9, evaluated at the failing input: a server record with `ID > 0` and no
replicas makes `StatFile` (via `getDataObject`) hit the unguarded
`Replicas[0]` — a Go runtime panic — whereas the listing loop of
`listEntries` skips the very same record. -/
theorem claim_C9_get_data_object_empty_replicas :
    (goStatFile emptyCache c9Server ["z", "f"]).result = .panicked ∧
    goCacheDataObjectEntries emptyCache [c9DataObject] = ([], emptyCache) :=
  ⟨by decide, by decide⟩

/-! ### C7: destination resolution of the rename operations -/

theorem moveDataObjectReqs_goGetCollection (c : FileSystemCache) (srv : Server)
    (p : IRODSPath) : moveDataObjectReqs (goGetCollection c srv p).reqs = [] := by
  unfold goGetCollection goGetCollectionFetch
  split
  · rfl
  · split
    · split
      · rfl
      · split
        · rfl
        · split <;> rfl
    · split
      · rfl
      · split <;> rfl

theorem moveCollectionReqs_goGetCollection (c : FileSystemCache) (srv : Server)
    (p : IRODSPath) : moveCollectionReqs (goGetCollection c srv p).reqs = [] := by
  unfold goGetCollection goGetCollectionFetch
  split
  · rfl
  · split
    · split
      · rfl
      · split
        · rfl
        · split <;> rfl
    · split
      · rfl
      · split <;> rfl

theorem goGetCollection_no_panic (c : FileSystemCache) (srv : Server)
    (p : IRODSPath) : (goGetCollection c srv p).result ≠ .panicked := by
  unfold goGetCollection goGetCollectionFetch
  split
  · simp
  · split
    · split
      · simp
      · split
        · simp
        · split <;> simp
    · split
      · simp
      · split <;> simp

theorem moveDataObjectReqs_goExistsDir (c : FileSystemCache) (srv : Server)
    (p : IRODSPath) : moveDataObjectReqs (goExistsDir c srv p).reqs = [] := by
  have h := moveDataObjectReqs_goGetCollection c srv p
  cases hr : (goStatDir c srv p).result <;> simp only [goExistsDir, hr] <;> exact h

theorem moveCollectionReqs_goExistsDir (c : FileSystemCache) (srv : Server)
    (p : IRODSPath) : moveCollectionReqs (goExistsDir c srv p).reqs = [] := by
  have h := moveCollectionReqs_goGetCollection c srv p
  cases hr : (goStatDir c srv p).result <;> simp only [goExistsDir, hr] <;> exact h

theorem moveDataObjectReqs_goRenameFileToFile (c : FileSystemCache) (srv : Server)
    (src dest : IRODSPath) :
    moveDataObjectReqs (goRenameFileToFile c srv src dest).reqs = [(src, dest)] := by
  unfold goRenameFileToFile
  split <;> rfl

theorem moveCollectionReqs_goRenameDirToDir (c : FileSystemCache) (srv : Server)
    (src dest : IRODSPath) :
    moveCollectionReqs (goRenameDirToDir c srv src dest).reqs = [(src, dest)] := by
  unfold goRenameDirToDir
  split <;> rfl

/-- C7: `RenameFile` and `RenameDir` resolve the destination before the
move: when `ExistsDir(dest)` holds, the move request's destination is
`dest/basename(src)`, otherwise `dest` itself; `RenameFileToFile` and
`RenameDirToDir` always issue the move with `dest` exactly as given. -/
theorem claim_C7_rename_dest_resolution (c : FileSystemCache) (srv : Server)
    (src dest : IRODSPath) :
    (∀ b, (goExistsDir c srv dest).result = .ok b →
      moveDataObjectReqs (goRenameFile c srv src dest).reqs =
        [(src, if b then makeIRODSPath dest (getIRODSPathFileName src) else dest)] ∧
      moveCollectionReqs (goRenameDir c srv src dest).reqs =
        [(src, if b then makeIRODSPath dest (getIRODSPathFileName src) else dest)]) ∧
    moveDataObjectReqs (goRenameFileToFile c srv src dest).reqs = [(src, dest)] ∧
    moveCollectionReqs (goRenameDirToDir c srv src dest).reqs = [(src, dest)] := by
  refine ⟨fun b hb => ⟨?_, ?_⟩, moveDataObjectReqs_goRenameFileToFile c srv src dest,
    moveCollectionReqs_goRenameDirToDir c srv src dest⟩
  · simp only [goRenameFile, hb]
    show moveDataObjectReqs ((goExistsDir c srv dest).reqs ++
      (goRenameFileToFile (goExistsDir c srv dest).cache srv src
        (if b then makeIRODSPath dest (getIRODSPathFileName src) else dest)).reqs) = _
    rw [moveDataObjectReqs, List.filterMap_append]
    rw [show List.filterMap _ (goExistsDir c srv dest).reqs = [] from
      moveDataObjectReqs_goExistsDir c srv dest]
    rw [show List.filterMap _ _ = [(src,
        if b then makeIRODSPath dest (getIRODSPathFileName src) else dest)] from
      moveDataObjectReqs_goRenameFileToFile (goExistsDir c srv dest).cache srv src _]
    rfl
  · simp only [goRenameDir, hb]
    show moveCollectionReqs ((goExistsDir c srv dest).reqs ++
      (goRenameDirToDir (goExistsDir c srv dest).cache srv src
        (if b then makeIRODSPath dest (getIRODSPathFileName src) else dest)).reqs) = _
    rw [moveCollectionReqs, List.filterMap_append]
    rw [show List.filterMap _ (goExistsDir c srv dest).reqs = [] from
      moveCollectionReqs_goExistsDir c srv dest]
    rw [show List.filterMap _ _ = [(src,
        if b then makeIRODSPath dest (getIRODSPathFileName src) else dest)] from
      moveCollectionReqs_goRenameDirToDir (goExistsDir c srv dest).cache srv src _]
    rfl

/-- Witness for C7 against a server on which the destination is an existing
directory. -/
theorem claim_C7_rename_dest_resolution_witness :
    moveDataObjectReqs
      (goRenameFile emptyCache c7Server ["z", "a", "f"] ["z", "b"]).reqs =
      [(["z", "a", "f"], ["z", "b", "f"])] ∧
    moveCollectionReqs
      (goRenameDir emptyCache c7Server ["z", "a", "d"] ["z", "b"]).reqs =
      [(["z", "a", "d"], ["z", "b", "d"])] := by
  have H1 := (claim_C7_rename_dest_resolution emptyCache c7Server
    ["z", "a", "f"] ["z", "b"]).1 true (by decide)
  have H2 := (claim_C7_rename_dest_resolution emptyCache c7Server
    ["z", "a", "d"] ["z", "b"]).1 true (by decide)
  exact ⟨H1.1, H2.2⟩

/-! ### C6: group expansion of ACL listings -/

theorem alPut_mem {κ α : Type} [DecidableEq κ] (m : List (κ × α)) (k : κ) (v : α)
    (kv : κ × α) : kv ∈ alPut m k v → kv = (k, v) ∨ kv ∈ m := by
  intro h
  rcases List.mem_cons.mp h with h | h
  · exact Or.inl h
  · exact Or.inr (List.mem_of_mem_filter h)

theorem alPut_keys_nodup {κ α : Type} [DecidableEq κ] (m : List (κ × α)) (k : κ)
    (v : α) : ((m.map Prod.fst).Nodup) → (((alPut m k v).map Prod.fst).Nodup) := by
  intro h
  unfold alPut alRemove
  rw [List.map_cons]
  refine List.nodup_cons.mpr ⟨?_, ?_⟩
  · intro hmem
    obtain ⟨kv, hkv, hfst⟩ := List.mem_map.mp hmem
    have hne := List.of_mem_filter hkv
    simp only [decide_eq_true_eq] at hne
    exact hne hfst
  · exact List.Nodup.sublist ((List.filter_sublist m).map Prod.fst) h

theorem alPut_keys_mono {κ α : Type} [DecidableEq κ] (m : List (κ × α)) (k : κ)
    (v : α) (q : κ) : q ∈ m.map Prod.fst → q ∈ (alPut m k v).map Prod.fst := by
  intro h
  by_cases hq : q = k
  · subst hq
    rw [alPut, List.map_cons]
    exact List.mem_cons_self _ _
  · obtain ⟨kv, hkv, rfl⟩ := List.mem_map.mp h
    refine List.mem_map.mpr ⟨kv, ?_, rfl⟩
    exact List.mem_cons.mpr (Or.inr (List.mem_filter.mpr ⟨hkv, decide_eq_true hq⟩))

theorem alPut_keys_self {κ α : Type} [DecidableEq κ] (m : List (κ × α)) (k : κ)
    (v : α) : k ∈ (alPut m k v).map Prod.fst := by
  rw [alPut, List.map_cons]
  exact List.mem_cons_self _ _

theorem expandFold_spec (access : IRODSAccess) (P : IRODSAccess → Prop)
    (users : List IRODSUser) :
    ∀ m : List (String × IRODSAccess),
      (∀ kv ∈ m, selfKey kv.2 = kv.1) →
      ((m.map Prod.fst).Nodup) →
      (∀ kv ∈ m, P kv.2) →
      (∀ u ∈ users, P (mkGroupUserAccess access u)) →
      (∀ kv ∈ expandFold access users m, selfKey kv.2 = kv.1) ∧
      (((expandFold access users m).map Prod.fst).Nodup) ∧
      (∀ kv ∈ expandFold access users m, P kv.2) ∧
      (∀ q ∈ m.map Prod.fst, q ∈ (expandFold access users m).map Prod.fst) ∧
      (∀ u ∈ users, accessKey u.Name access.AccessLevel ∈
        (expandFold access users m).map Prod.fst) := by
  induction users with
  | nil =>
    intro m h1 h2 h3 _
    exact ⟨h1, h2, h3, fun q h => h, fun u hu => absurd hu (List.not_mem_nil u)⟩
  | cons u us ih =>
    intro m h1 h2 h3 h4
    have hfold : expandFold access (u :: us) m =
        expandFold access us (alPut m (accessKey u.Name access.AccessLevel)
          (mkGroupUserAccess access u)) := rfl
    rw [hfold]
    have h1' : ∀ kv ∈ alPut m (accessKey u.Name access.AccessLevel)
        (mkGroupUserAccess access u), selfKey kv.2 = kv.1 := by
      intro kv hkv
      rcases alPut_mem _ _ _ _ hkv with rfl | hkv'
      · rfl
      · exact h1 kv hkv'
    have h2' := alPut_keys_nodup m (accessKey u.Name access.AccessLevel)
      (mkGroupUserAccess access u) h2
    have h3' : ∀ kv ∈ alPut m (accessKey u.Name access.AccessLevel)
        (mkGroupUserAccess access u), P kv.2 := by
      intro kv hkv
      rcases alPut_mem _ _ _ _ hkv with rfl | hkv'
      · exact h4 u (List.mem_cons_self _ _)
      · exact h3 kv hkv'
    obtain ⟨g1, g2, g3, g4, g5⟩ := ih _ h1' h2' h3'
      (fun u' hu' => h4 u' (List.mem_cons_of_mem _ hu'))
    refine ⟨g1, g2, g3, ?_, ?_⟩
    · intro q hq
      exact g4 q (alPut_keys_mono _ _ _ _ hq)
    · intro u' hu'
      rcases List.mem_cons.mp hu' with rfl | hu''
      · exact g4 _ (alPut_keys_self _ _ _)
      · exact g5 u' hu''

theorem goListGroupUsers_groupUsersOf (c : FileSystemCache) (srv : Server)
    (g : String) :
    (∀ us, (goListGroupUsers c srv g).result = .ok us →
      groupUsersOf c srv g = .ok us) ∧
    (∀ g', groupUsersOf (goListGroupUsers c srv g).cache srv g' =
      groupUsersOf c srv g') := by
  have hadd : ∀ (us0 : List IRODSUser) (g' : String),
      (c.AddGroupUsersCache g us0).GetGroupUsersCache g' =
        if g' = g then some us0 else c.GetGroupUsersCache g' := by
    intro us0 g'
    simp only [FileSystemCache.AddGroupUsersCache, FileSystemCache.GetGroupUsersCache]
    exact alGet_alPut _ _ _ _
  unfold goListGroupUsers
  cases hc : c.GetGroupUsersCache g with
  | some us0 =>
    refine ⟨fun us h => ?_, fun g' => rfl⟩
    cases h
    unfold groupUsersOf
    rw [hc]
  | none =>
    cases hs : srv.listGroupUsers g with
    | error e =>
      refine ⟨fun us h => ?_, fun g' => rfl⟩
      cases h
    | ok us0 =>
      refine ⟨fun us h => ?_, fun g' => ?_⟩
      · cases h
        unfold groupUsersOf
        rw [hc]
        exact hs
      · show groupUsersOf (c.AddGroupUsersCache g us0) srv g' = groupUsersOf c srv g'
        unfold groupUsersOf
        rw [hadd us0 g']
        by_cases hg : g' = g
        · rw [if_pos hg, hg, hc, hs]
        · rw [if_neg hg]

theorem goExpandAccessesLoop_spec (srv : Server) (c0 : FileSystemCache)
    (allowed : List IRODSAccess) :
    ∀ (accesses : List IRODSAccess) (c : FileSystemCache)
      (m m' : List (String × IRODSAccess)),
      (∀ b ∈ accesses, b ∈ allowed) →
      (∀ g, groupUsersOf c srv g = groupUsersOf c0 srv g) →
      (∀ kv ∈ m, selfKey kv.2 = kv.1) →
      ((m.map Prod.fst).Nodup) →
      (∀ kv ∈ m, GoodAccess c0 srv allowed kv.2) →
      (goExpandAccessesLoop c srv accesses m).result = .ok m' →
      (∀ kv ∈ m', selfKey kv.2 = kv.1) ∧
      ((m'.map Prod.fst).Nodup) ∧
      (∀ kv ∈ m', GoodAccess c0 srv allowed kv.2) ∧
      (∀ q ∈ m.map Prod.fst, q ∈ m'.map Prod.fst) ∧
      (∀ b ∈ accesses, b.UserType = IRODSUserRodsGroup →
        ∀ us, groupUsersOf c0 srv b.UserName = .ok us →
          ∀ u ∈ us, accessKey u.Name b.AccessLevel ∈ m'.map Prod.fst) ∧
      (∀ b ∈ accesses, b.UserType ≠ IRODSUserRodsGroup →
        selfKey b ∈ m'.map Prod.fst) := by
  intro accesses
  induction accesses with
  | nil =>
    intro c m m' _ _ h1 h2 h3 hres
    simp only [goExpandAccessesLoop] at hres
    cases hres
    exact ⟨h1, h2, h3, fun q h => h, fun b hb => absurd hb (List.not_mem_nil b),
      fun b hb => absurd hb (List.not_mem_nil b)⟩
  | cons access rest ih =>
    intro c m m' hsub hgu h1 h2 h3 hres
    simp only [goExpandAccessesLoop] at hres
    by_cases hgroup : access.UserType = IRODSUserRodsGroup
    · rw [if_pos hgroup] at hres
      cases hr : (goListGroupUsers c srv access.UserName).result with
      | err e => rw [hr] at hres; simp at hres
      | panicked => rw [hr] at hres; simp at hres
      | ok users =>
        rw [hr] at hres
        have hspec := goListGroupUsers_groupUsersOf c srv access.UserName
        have hgu' : ∀ g, groupUsersOf (goListGroupUsers c srv access.UserName).cache
            srv g = groupUsersOf c0 srv g :=
          fun g => (hspec.2 g).trans (hgu g)
        have husers : groupUsersOf c0 srv access.UserName = .ok users := by
          rw [← hgu access.UserName]
          exact hspec.1 users hr
        have hP : ∀ u ∈ users, GoodAccess c0 srv allowed
            (mkGroupUserAccess access u) := by
          intro u hu
          exact Or.inr ⟨access, hsub access (List.mem_cons_self _ _), hgroup,
            users, husers, u, hu, rfl⟩
        obtain ⟨f1, f2, f3, f4, f5⟩ :=
          expandFold_spec access (GoodAccess c0 srv allowed) users m h1 h2 h3 hP
        obtain ⟨g1, g2, g3, g4, g5, g6⟩ := ih
          (goListGroupUsers c srv access.UserName).cache
          (expandFold access users m) m'
          (fun b hb => hsub b (List.mem_cons_of_mem _ hb)) hgu' f1 f2 f3 hres
        refine ⟨g1, g2, g3, fun q hq => g4 q (f4 q hq), ?_, ?_⟩
        · intro b hb hbg us hus u hu
          rcases List.mem_cons.mp hb with rfl | hb'
          · have hus' : us = users := by
              rw [husers] at hus
              cases hus
              rfl
            subst hus'
            exact g4 _ (f5 u hu)
          · exact g5 b hb' hbg us hus u hu
        · intro b hb hbn
          rcases List.mem_cons.mp hb with rfl | hb'
          · exact absurd hgroup hbn
          · exact g6 b hb' hbn
    · rw [if_neg hgroup] at hres
      have h1' : ∀ kv ∈ alPut m (accessKey access.UserName access.AccessLevel)
          access, selfKey kv.2 = kv.1 := by
        intro kv hkv
        rcases alPut_mem _ _ _ _ hkv with rfl | hkv'
        · rfl
        · exact h1 kv hkv'
      have h2' := alPut_keys_nodup m (accessKey access.UserName access.AccessLevel)
        access h2
      have h3' : ∀ kv ∈ alPut m (accessKey access.UserName access.AccessLevel)
          access, GoodAccess c0 srv allowed kv.2 := by
        intro kv hkv
        rcases alPut_mem _ _ _ _ hkv with rfl | hkv'
        · exact Or.inl ⟨access, hsub access (List.mem_cons_self _ _), hgroup, rfl⟩
        · exact h3 kv hkv'
      obtain ⟨g1, g2, g3, g4, g5, g6⟩ := ih c
        (alPut m (accessKey access.UserName access.AccessLevel) access) m'
        (fun b hb => hsub b (List.mem_cons_of_mem _ hb)) hgu h1' h2' h3' hres
      refine ⟨g1, g2, g3, fun q hq => g4 q (alPut_keys_mono _ _ _ _ hq), ?_, ?_⟩
      · intro b hb hbg us hus u hu
        rcases List.mem_cons.mp hb with rfl | hb'
        · exact absurd hbg hgroup
        · exact g5 b hb' hbg us hus u hu
      · intro b hb hbn
        rcases List.mem_cons.mp hb with rfl | hb'
        · exact g4 _ (alPut_keys_self _ _ _)
        · exact g6 b hb' hbn

theorem map_snd_pairwise_selfKey (m : List (String × IRODSAccess)) :
    (∀ kv ∈ m, selfKey kv.2 = kv.1) → ((m.map Prod.fst).Nodup) →
    (m.map Prod.snd).Pairwise (fun a b => selfKey a ≠ selfKey b) := by
  induction m with
  | nil => intro _ _; exact List.Pairwise.nil
  | cons kv tl ih =>
    intro h1 h2
    rw [List.map_cons] at h2 ⊢
    obtain ⟨hnotin, htl⟩ := List.nodup_cons.mp h2
    refine List.Pairwise.cons ?_
      (ih (fun x hx => h1 x (List.mem_cons_of_mem _ hx)) htl)
    intro b hb
    obtain ⟨kv', hkv', rfl⟩ := List.mem_map.mp hb
    have e1 : selfKey kv.2 = kv.1 := h1 kv (List.mem_cons_self _ _)
    have e2 : selfKey kv'.2 = kv'.1 := h1 kv' (List.mem_cons_of_mem _ hkv')
    rw [e1, e2]
    intro heq
    exact hnotin (heq ▸ List.mem_map.mpr ⟨kv', hkv', rfl⟩)

theorem goExpandAccessesLoop_post (srv : Server) (c0 : FileSystemCache)
    (accesses : List IRODSAccess) (m' : List (String × IRODSAccess)) :
    (goExpandAccessesLoop c0 srv accesses []).result = .ok m' →
    ACLExpansionPost c0 srv accesses (m'.map Prod.snd) := by
  intro hres
  obtain ⟨g1, g2, g3, _, g5, g6⟩ := goExpandAccessesLoop_spec srv c0 accesses
    accesses c0 [] m' (fun b hb => hb) (fun g => rfl) (by simp) (by simp)
    (by simp) hres
  refine ⟨?_, ?_, ?_, ?_⟩
  · refine (map_snd_pairwise_selfKey m' g1 g2).imp ?_
    intro a b h hab
    exact h (by rw [selfKey, selfKey, hab.1, hab.2])
  · intro a ha
    obtain ⟨kv, hkv, rfl⟩ := List.mem_map.mp ha
    exact g3 kv hkv
  · intro b hb hbg us hus u hu
    obtain ⟨kv, hkv, hfst⟩ := List.mem_map.mp (g5 b hb hbg us hus u hu)
    exact ⟨kv.2, List.mem_map.mpr ⟨kv, hkv, rfl⟩, (g1 kv hkv).trans hfst⟩
  · intro b hb hbn
    obtain ⟨kv, hkv, hfst⟩ := List.mem_map.mp (g6 b hb hbn)
    exact ⟨kv.2, List.mem_map.mpr ⟨kv, hkv, rfl⟩, (g1 kv hkv).trans hfst⟩

/-- C6: `ListDirACLsWithGroupUsers` and `ListFileACLsWithGroupUsers` replace
each group-typed ACL of the plain list by per-member ACLs carrying the
group's access level and the member's name, zone and type, keep non-group
ACLs unchanged, and dedup so that the output never holds two ACLs with the
same `(userName, accessLevel)` pair; every group member and every non-group
ACL is represented by its dedup key in the output. -/
theorem claim_C6_acl_group_expansion (c : FileSystemCache) (srv : Server)
    (p : IRODSPath) :
    (∀ accesses lst, (goListDirACLs c srv p).result = .ok accesses →
      (goListDirACLsWithGroupUsers c srv p).result = .ok lst →
      ACLExpansionPost (goListDirACLs c srv p).cache srv accesses lst) ∧
    (∀ accesses lst, (goListFileACLs c srv p).result = .ok accesses →
      (goListFileACLsWithGroupUsers c srv p).result = .ok lst →
      ACLExpansionPost (goListFileACLs c srv p).cache srv accesses lst) := by
  constructor
  · intro accesses lst hacc hlst
    simp only [goListDirACLsWithGroupUsers, hacc] at hlst
    cases hr2 : (goExpandAccessesLoop (goListDirACLs c srv p).cache srv accesses
        []).result with
    | err e => rw [hr2] at hlst; simp at hlst
    | panicked => rw [hr2] at hlst; simp at hlst
    | ok m =>
      rw [hr2] at hlst
      simp only [] at hlst
      cases hlst
      exact goExpandAccessesLoop_post srv _ accesses m hr2
  · intro accesses lst hacc hlst
    simp only [goListFileACLsWithGroupUsers, hacc] at hlst
    cases hr2 : (goExpandAccessesLoop (goListFileACLs c srv p).cache srv accesses
        []).result with
    | err e => rw [hr2] at hlst; simp at hlst
    | panicked => rw [hr2] at hlst; simp at hlst
    | ok m =>
      rw [hr2] at hlst
      simp only [] at hlst
      cases hlst
      exact goExpandAccessesLoop_post srv _ accesses m hr2

/-- Witness for C6: one group ACL with one member plus one plain ACL expand
to a two-element deduplicated list. -/
theorem claim_C6_acl_group_expansion_witness :
    (goListDirACLsWithGroupUsers emptyCache c6Server ["z"]).result =
      .ok [c6UserAccess, mkGroupUserAccess c6GroupAccess c6Member] ∧
    ([c6UserAccess, mkGroupUserAccess c6GroupAccess c6Member]).Pairwise
      (fun a b => ¬ (a.UserName = b.UserName ∧ a.AccessLevel = b.AccessLevel)) := by
  have H := (claim_C6_acl_group_expansion emptyCache c6Server ["z"]).1
    [c6GroupAccess, c6UserAccess]
    [c6UserAccess, mkGroupUserAccess c6GroupAccess c6Member]
    (by decide) (by decide)
  exact ⟨by decide, H.1⟩

end GoIrods
